import Mathlib

/-!
Verification of the libmount mtab locking module (`lock.c`).

The C code is shallowly embedded: the filesystem is a finite map from path
strings to inode numbers (`Fs`), hard links are modelled by two paths mapping
to the same inode number, and file contents are modelled by a per-inode size
and mode.  Machine-level `errno` results are plain naturals, return codes are
`Int`.  Syscalls whose outcome depends on the environment (interruption of a
blocking `fcntl`, the wall clock, spurious open/link failures injected by
other processes) are driven by explicit oracle values, so every definition is
executable.
-/

namespace MtabLock

/-- `errno` value ENOENT (no such file or directory). -/
def ENOENT : Nat := 2

/-- `errno` value EINTR (interrupted system call). -/
def EINTR : Nat := 4

/-- `errno` value EEXIST (file exists). -/
def EEXIST : Nat := 17

/-- `errno` value EINVAL (invalid argument). -/
def EINVAL : Nat := 22

/-- `errno` value ETIMEDOUT (connection timed out); `mnt_lock_file` reports
`-ETIMEDOUT` on a lock timeout. -/
def ETIMEDOUT : Nat := 110

/-- maximum seconds between first and last attempt (`MOUNTLOCK_MAXTIME`). -/
def MOUNTLOCK_MAXTIME : Nat := 30

/-- sleep time in microseconds between attempts (`MOUNTLOCK_WAITTIME`). -/
def MOUNTLOCK_WAITTIME : Nat := 5000

/-- An inode: the data shared between all hard links of one file.  `size` is
the byte size of the content, `mode` the permission bits. -/
structure Inode where
  size : Nat
  mode : Nat
deriving DecidableEq

/-- A single-device filesystem: `names` maps paths to inode numbers (several
paths mapping to the same number are hard links of one file), `inodes` maps
inode numbers to file data, and `next` is the next fresh inode number. -/
structure Fs where
  next : Nat
  names : List (String × Nat)
  inodes : List (Nat × Inode)
deriving DecidableEq

/-- Looks a path up in a directory listing. -/
def lookupName (q : String) : List (String × Nat) → Option Nat
  | [] => none
  | (k, v) :: t => if q = k then some v else lookupName q t

/-- Looks an inode number up in the inode table. -/
def lookupIno (n : Nat) : List (Nat × Inode) → Option Inode
  | [] => none
  | (k, v) :: t => if n = k then some v else lookupIno n t

/-- `stat(2)` restricted to the inode number: all files live on one device,
so `st_dev` comparisons in the source are always true and only `st_ino` is
modelled. -/
def statIno (fs : Fs) (p : String) : Option Nat :=
  lookupName p fs.names

/-- `unlink(2)`: removes the directory entry for `p` (the inode table is left
alone, as for a file whose other hard links survive). -/
def unlinkSys (fs : Fs) (p : String) : Fs :=
  { fs with names := fs.names.filter (fun q => q.1 != p) }

/-- Adds a directory entry `p ↦ n`; used by `link(2)` for the new name. -/
def addName (fs : Fs) (p : String) (n : Nat) : Fs :=
  { fs with names := (p, n) :: fs.names }

/-- `open(p, O_WRONLY|O_CREAT, mode)` followed by `close`: if `p` exists it is
opened as-is (no `O_TRUNC`, so the content is untouched); otherwise an empty
file with a fresh inode and the given mode is created.  Returns the updated
filesystem and the inode of the opened file. -/
def openCreat (fs : Fs) (p : String) (mode : Nat) : Fs × Nat :=
  match statIno fs p with
  | some i => (fs, i)
  | none =>
    ({ next := fs.next + 1,
       names := (p, fs.next) :: fs.names,
       inodes := (fs.next, { size := 0, mode := mode }) :: fs.inodes }, fs.next)

/-- Byte size of the file at `p`, when it exists. -/
def fileSize (fs : Fs) (p : String) : Option Nat :=
  match statIno fs p with
  | some i => (lookupIno i fs.inodes).map Inode.size
  | none => none

/-- Boolean form of the device+inode comparison done by the defensive
ownership recovery in `mnt_unlock_file`: both paths exist and carry the same
inode number. -/
def sameInodeB (fs : Fs) (p q : String) : Bool :=
  match statIno fs p, statIno fs q with
  | some a, some b => a == b
  | _, _ => false

/-- The lock handle `struct _mnt_lock`: paths are `Option String` because the
C fields are possibly-NULL `char *` pointers. -/
structure mnt_lock where
  lockfile : Option String
  linkfile : Option String
  lockfile_fd : Int
  locked : Bool
deriving DecidableEq

/-- `mnt_new_lock(datafile, id)`: returns NULL (`none`) when `datafile` is the
NULL pointer, otherwise a fresh handle with `lockfile = datafile ++ "~"` and
`linkfile = datafile ++ "~." ++ (id ? id : getpid())`.  `pid` stands for the
value of `getpid()`; allocation failures of `asprintf`/`calloc` are not
modelled. -/
def mnt_new_lock (datafile : Option String) (id : Int) (pid : Int) : Option mnt_lock :=
  match datafile with
  | none => none
  | some d =>
    some { lockfile := some (d ++ "~"),
           linkfile := some (d ++ "~." ++ toString (if id = 0 then pid else id)),
           lockfile_fd := -1,
           locked := false }

/-- `mnt_free_lock(ml)`: deallocation has no observable effect in the model;
the NULL guard of the source is kept. -/
def mnt_free_lock (ml : Option mnt_lock) : Unit :=
  match ml with
  | none => ()
  | some _ => ()

/-- `mnt_lock_get_lockfile(ml)`: NULL-tolerant accessor for the lock file
path. -/
def mnt_lock_get_lockfile (ml : Option mnt_lock) : Option String :=
  match ml with
  | none => none
  | some m => m.lockfile

/-- `mnt_lock_get_linkfile(ml)`: NULL-tolerant accessor for the link file
path. -/
def mnt_lock_get_linkfile (ml : Option mnt_lock) : Option String :=
  match ml with
  | none => none
  | some m => m.linkfile

/-- Body of `mnt_unlock_file` for a non-NULL handle.  Mirrors the source: the
paranoid ownership recovery (`locked == 0` and both paths `stat` to the same
device and inode means we own the lock after all), unconditional
`unlink(linkfile)`, `close(lockfile_fd)` (no filesystem effect), and
`unlink(lockfile)` only when owning; finally `locked = 0`,
`lockfile_fd = -1`. -/
def mnt_unlock_file_body (fs : Fs) (m : mnt_lock) : Fs × mnt_lock :=
  let locked1 :=
    if m.locked = false then
      match m.lockfile, m.linkfile with
      | some lo, some li =>
        match statIno fs lo, statIno fs li with
        | some a, some b => if a = b then true else m.locked
        | _, _ => m.locked
      | _, _ => m.locked
    else m.locked
  let fs1 :=
    match m.linkfile with
    | some li => unlinkSys fs li
    | none => fs
  let fs2 :=
    if locked1 = true then
      match m.lockfile with
      | some lo => unlinkSys fs1 lo
      | none => fs1
    else fs1
  (fs2, { m with locked := false, lockfile_fd := -1 })

/-- `mnt_unlock_file(ml)`: NULL handles are ignored, otherwise the body above
runs on the handle. -/
def mnt_unlock_file (fs : Fs) (ml : Option mnt_lock) : Fs × Option mnt_lock :=
  match ml with
  | none => (fs, none)
  | some m =>
    let r := mnt_unlock_file_body fs m
    (r.1, some r.2)

/-- Outcome of the `fcntl(fd, F_SETLKW, ...)` call inside `mnt_wait_lock`:
either it returns 0, or it fails and `errno` is `e`.  The outcome depends on
other processes and on signal delivery, so it is an oracle value. -/
inductive FcntlRes where
  | ok : FcntlRes
  | ferr : Nat → FcntlRes
deriving DecidableEq

/-- `mnt_wait_lock(ml, fl, maxtime)`: returns 1 immediately when the deadline
has already passed; otherwise performs the blocking `F_SETLKW` under an
`alarm`, returning 0 on success, 1 when `errno == EINTR`, and `-errno` on any
other failure.  `now` is the `gettimeofday` second read at entry, `r` the
oracle outcome of the `fcntl` call. -/
def mnt_wait_lock (now maxtime : Nat) (r : FcntlRes) : Int :=
  if maxtime ≤ now then 1
  else
    match r with
    | .ok => 0
    | .ferr e => if e = EINTR then 1 else -(e : Int)

/-- Result of `link(2)`: new filesystem on success, `errno` on failure. -/
inductive LinkOut where
  | ok : Fs → LinkOut
  | err : Nat → LinkOut
deriving DecidableEq

/-- `link(src, dst)`: fails with `EEXIST` when `dst` exists, with `ENOENT`
when `src` does not, and otherwise makes `dst` a new hard link of `src`.  A
spurious failure `e` injected by the environment (`inj = some e`) models
failures, such as permission problems, that the filesystem map does not
determine. -/
def linkSys (fs : Fs) (src dst : String) (inj : Option Nat) : LinkOut :=
  match inj with
  | some e => .err e
  | none =>
    match statIno fs dst with
    | some _ => .err EEXIST
    | none =>
      match statIno fs src with
      | some n => .ok (addName fs dst n)
      | none => .err ENOENT

/-- Result of `open(p, O_WRONLY)`: inode of the opened file, or `errno`. -/
inductive OpenOut where
  | ok : Nat → OpenOut
  | err : Nat → OpenOut
deriving DecidableEq

/-- `open(p, O_WRONLY)`: succeeds when `p` exists, fails with `ENOENT` when it
does not; `inj = some e` injects an environment failure (for instance the file
vanishing between `link` and `open`, or descriptor exhaustion). -/
def openSys (fs : Fs) (p : String) (inj : Option Nat) : OpenOut :=
  match inj with
  | some e => .err e
  | none =>
    match statIno fs p with
    | some n => .ok n
    | none => .err ENOENT

/-- Outcome of the link attempt at the top of the acquire loop, after the
source's error handling: `j = link(linkfile, lockfile); if (j == 0)
ml->locked = 1; if (j < 0 && errno != EEXIST) { rc = -errno; goto failed; }`.
Either the loop proceeds to the `open` (with the handle possibly marked
locked), or the error is fatal with return code `rc`. -/
inductive LinkStepOut where
  | proceed : Fs → mnt_lock → LinkStepOut
  | fatal : Int → LinkStepOut
deriving DecidableEq

/-- The link attempt of one acquire-loop iteration (see `LinkStepOut`). -/
def linkStep (fs : Fs) (ml : mnt_lock) (linkf lockf : String) (inj : Option Nat) :
    LinkStepOut :=
  match linkSys fs linkf lockf inj with
  | .ok fs1 => .proceed fs1 { ml with locked := true }
  | .err e =>
    if e = EEXIST then .proceed fs ml
    else .fatal (if 0 < e then -(e : Int) else -1)

/-- Oracle values consumed by one iteration of the acquire loop: injected
`link`/`open` failures, the `gettimeofday` second read after a failed `open`
(`tOpen`) and inside `mnt_wait_lock` (`tWait`), and the outcome of the
blocking `fcntl`. -/
structure IterEv where
  linkInj : Option Nat
  openInj : Option Nat
  tOpen : Nat
  tWait : Nat
  waitRes : FcntlRes
deriving DecidableEq

/-- Oracle for a whole `mnt_lock_file` call: an injected failure of the
initial `open(linkfile, O_WRONLY|O_CREAT, ...)`, the `gettimeofday` second at
which the deadline is computed, and one `IterEv` per loop iteration (the run
is cut off, yielding `none`, when the list is exhausted). -/
structure LockOracle where
  creatInj : Option Nat
  t0 : Nat
  iters : List IterEv
deriving DecidableEq

/-- The `while (ml->locked == 0)` loop of `mnt_lock_file`, one `IterEv` per
iteration.  Mirrors the source: link attempt; open of the lock file with the
`ENOENT`-before-deadline retry; for the link winner a best-effort non-blocking
`F_SETLK` (ignored, no model effect) followed by `break`, `unlink(linkfile)`
and success; for a contender the bounded blocking wait, where result 1 is
`-ETIMEDOUT`, a negative result is fatal, and 0 leads to `nanosleep`,
`close(fd)` and the next iteration.  Every fatal path runs
`mnt_unlock_file`. -/
def acquireLoop (fs : Fs) (ml : mnt_lock) (lockf linkf : String) (maxtime : Nat) :
    List IterEv → Option (Fs × mnt_lock × Int)
  | [] => none
  | ev :: rest =>
    match linkStep fs ml linkf lockf ev.linkInj with
    | .fatal rc =>
      let r := mnt_unlock_file_body fs ml
      some (r.1, r.2, rc)
    | .proceed fs1 ml1 =>
      match openSys fs1 lockf ev.openInj with
      | .err e =>
        let ml2 := { ml1 with lockfile_fd := -1 }
        if e = ENOENT ∧ ev.tOpen < maxtime then
          acquireLoop fs1 { ml2 with locked := false } lockf linkf maxtime rest
        else
          let rc := if 0 < e then -(e : Int) else -1
          let r := mnt_unlock_file_body fs1 ml2
          some (r.1, r.2, rc)
      | .ok n =>
        let ml2 := { ml1 with lockfile_fd := (n : Int) }
        if ml2.locked then
          some (unlinkSys fs1 linkf, ml2, 0)
        else
          let err := mnt_wait_lock ev.tWait maxtime ev.waitRes
          if err = 1 then
            let r := mnt_unlock_file_body fs1 ml2
            some (r.1, r.2, -(ETIMEDOUT : Int))
          else if err < 0 then
            let r := mnt_unlock_file_body fs1 ml2
            some (r.1, r.2, err)
          else
            acquireLoop fs1 { ml2 with lockfile_fd := -1 } lockf linkf maxtime rest

/-- `mnt_lock_file(ml)`: `-EINVAL` on a NULL handle or NULL paths, 0 when the
handle already owns the lock; otherwise creates the link file (owner-only
read/write mode 0600 = 384), computes the deadline `t0 + MOUNTLOCK_MAXTIME`,
and runs the acquire loop.  The result is `none` only when the oracle has
fewer iteration events than the run consumes. -/
def mnt_lock_file (fs : Fs) (ml : Option mnt_lock) (o : LockOracle) :
    Option (Fs × Option mnt_lock × Int) :=
  match ml with
  | none => some (fs, none, -(EINVAL : Int))
  | some m =>
    if m.locked then some (fs, some m, 0)
    else
      match mnt_lock_get_lockfile (some m), mnt_lock_get_linkfile (some m) with
      | none, _ => some (fs, some m, -(EINVAL : Int))
      | some _, none => some (fs, some m, -(EINVAL : Int))
      | some lockf, some linkf =>
        match o.creatInj with
        | some e =>
          let rc := if 0 < e then -(e : Int) else -1
          let r := mnt_unlock_file_body fs m
          some (r.1, some r.2, rc)
        | none =>
          let fs1 := (openCreat fs linkf 384).1
          let maxtime := o.t0 + MOUNTLOCK_MAXTIME
          match acquireLoop fs1 m lockf linkf maxtime o.iters with
          | none => none
          | some (fs2, m2, rc) => some (fs2, some m2, rc)

/-!
Cross-process interleaving model for the mutual-exclusion property.

`N` processes run `mnt_lock_file` concurrently against the same data file:
process `i` uses the shared lock path `lockf` and its own link path
`linkf i`.  Each syscall of the source is one atomic transition on the shared
filesystem; program counters name the position between syscalls.  Time and
the outcome of the blocking wait stay nondeterministic (several transitions
can fire from the same counter), while `link`/`open`/`stat` outcomes are
determined by the filesystem, exactly as in the source's algorithm.
-/

/-- Program counter of one process inside `mnt_lock_file`: `start` before the
`O_CREAT` open of the link file, `loop` at the top of the while loop (about to
`link`), `linked` between `link` and `open`, `opened` holding the lock-file
descriptor (about to `F_SETLK`/`F_SETLKW`), `success` after `break` (about to
`unlink(linkfile)`), `done` after returning 0; `cleanA`–`cleanE` are the
statements of `mnt_unlock_file` on the `failed` path (ownership recovery,
`unlink(linkfile)`, `close(fd)`, conditional `unlink(lockfile)`, final flag
reset) and `failed` is the error return. -/
inductive PC where
  | start
  | loop
  | linked
  | opened
  | success
  | done
  | cleanA
  | cleanB
  | cleanC
  | cleanD
  | cleanE
  | failed
deriving DecidableEq

/-- The `mnt_unlock_file` statements of the cleanup path. -/
def PC.isCleanup : PC → Prop
  | .cleanA => True
  | .cleanB => True
  | .cleanC => True
  | .cleanD => True
  | .cleanE => True
  | _ => False

instance : DecidablePred PC.isCleanup := by
  intro pc
  cases pc <;> simp [PC.isCleanup] <;> infer_instance

/-- The counters at which a `locked == 1` process still guards the lock file:
from the successful `link` up to and including the cleanup's
`unlink(lockfile)` statement.  At `cleanE` an owner has already deleted the
lock file but not yet reset its flag, and at `failed`/`loop`/`start` a
process is never an owner. -/
def critPC : PC → Prop
  | .linked => True
  | .opened => True
  | .success => True
  | .done => True
  | .cleanA => True
  | .cleanB => True
  | .cleanC => True
  | .cleanD => True
  | _ => False

/-- The counters a process can only reach after its own `unlink(linkfile)`
(the winner's unlink before `return 0`, or the cleanup's). -/
def gonePC : PC → Prop
  | .cleanC => True
  | .cleanD => True
  | .cleanE => True
  | .failed => True
  | .done => True
  | _ => False

/-- The counters at which a process never has `locked == 1`: before its first
link attempt, at the loop head, and after the cleanup epilogue reset the
flag. -/
def plainPC : PC → Prop
  | .start => True
  | .loop => True
  | .failed => True
  | _ => False

/-- One process: program counter plus the in-memory handle fields that matter
across processes (`locked`, `lockfile_fd`). -/
structure PState where
  pc : PC
  locked : Bool
  fd : Int
deriving DecidableEq

/-- Global state: the shared filesystem and every process's local state. -/
structure GState (N : Nat) where
  fs : Fs
  procs : Fin N → PState

/-- Replaces process `i`'s local state. -/
def setProc {N : Nat} (g : GState N) (i : Fin N) (p : PState) : GState N :=
  { g with procs := fun j => if j = i then p else g.procs j }

/-- One atomic transition of the interleaved system.  Each constructor is one
syscall (or one branch after a syscall) of `mnt_lock_file` /
`mnt_unlock_file`, executed by some process `i` against the shared
filesystem. -/
inductive Step (N : Nat) (lockf : String) (linkf : Fin N → String) :
    GState N → GState N → Prop where
  /-- `open(linkfile, O_WRONLY|O_CREAT, 0600)` + `close` succeeds. -/
  | creatLink (g : GState N) (i : Fin N)
      (h : (g.procs i).pc = PC.start) :
      Step N lockf linkf g
        (setProc { g with fs := (openCreat g.fs (linkf i) 384).1 } i
          { g.procs i with pc := PC.loop })
  /-- The initial open fails (read-only or full filesystem, ...): straight to
  the cleanup path. -/
  | creatFail (g : GState N) (i : Fin N)
      (h : (g.procs i).pc = PC.start) :
      Step N lockf linkf g (setProc g i { g.procs i with pc := PC.cleanA })
  /-- `link(linkfile, lockfile)` succeeds: this process made the link and sets
  `locked = 1`. -/
  | linkOk (g : GState N) (i : Fin N) (n : Nat)
      (h : (g.procs i).pc = PC.loop)
      (hL : statIno g.fs lockf = none)
      (hs : statIno g.fs (linkf i) = some n) :
      Step N lockf linkf g
        (setProc { g with fs := addName g.fs lockf n } i
          { g.procs i with pc := PC.linked, locked := true })
  /-- `link` fails with `EEXIST`: somebody else holds or contends; proceed to
  the `open`. -/
  | linkEexist (g : GState N) (i : Fin N) (n : Nat)
      (h : (g.procs i).pc = PC.loop)
      (hL : statIno g.fs lockf = some n) :
      Step N lockf linkf g (setProc g i { g.procs i with pc := PC.linked })
  /-- `link` fails with `ENOENT` because the link source vanished: fatal
  (`errno != EEXIST`), to the cleanup path. -/
  | linkEnoent (g : GState N) (i : Fin N)
      (h : (g.procs i).pc = PC.loop)
      (hL : statIno g.fs lockf = none)
      (hs : statIno g.fs (linkf i) = none) :
      Step N lockf linkf g (setProc g i { g.procs i with pc := PC.cleanA })
  /-- `link` fails with any other `errno` not equal to `EEXIST` (`EMLINK`,
  `EIO`, ...), which can happen in any filesystem state: fatal, to the
  cleanup path (source lines 372-376). -/
  | linkFatal (g : GState N) (i : Fin N)
      (h : (g.procs i).pc = PC.loop) :
      Step N lockf linkf g (setProc g i { g.procs i with pc := PC.cleanA })
  /-- `open(lockfile, O_WRONLY)` succeeds. -/
  | openOk (g : GState N) (i : Fin N) (n : Nat)
      (h : (g.procs i).pc = PC.linked)
      (hL : statIno g.fs lockf = some n) :
      Step N lockf linkf g
        (setProc g i { g.procs i with pc := PC.opened, fd := (n : Int) })
  /-- `open` fails with `ENOENT` and `now < maxtime`: `locked = 0`,
  `continue`. -/
  | openEnoentRetry (g : GState N) (i : Fin N)
      (h : (g.procs i).pc = PC.linked)
      (hL : statIno g.fs lockf = none) :
      Step N lockf linkf g
        (setProc g i { g.procs i with pc := PC.loop, locked := false, fd := -1 })
  /-- `open` fails with `ENOENT` after the deadline: fatal. -/
  | openEnoentFatal (g : GState N) (i : Fin N)
      (h : (g.procs i).pc = PC.linked)
      (hL : statIno g.fs lockf = none) :
      Step N lockf linkf g (setProc g i { g.procs i with pc := PC.cleanA, fd := -1 })
  /-- `open` fails with an `errno` other than `ENOENT` (`EMFILE`, `EINTR`,
  `EACCES`, ...), which can happen in any filesystem state — in particular to
  the process that just won the link: fatal, to the cleanup path (source
  lines 379-389). -/
  | openFatal (g : GState N) (i : Fin N)
      (h : (g.procs i).pc = PC.linked) :
      Step N lockf linkf g (setProc g i { g.procs i with pc := PC.cleanA, fd := -1 })
  /-- The link winner places the best-effort non-blocking `F_SETLK` (outcome
  ignored) and breaks out of the loop. -/
  | setlkBreak (g : GState N) (i : Fin N)
      (h : (g.procs i).pc = PC.opened)
      (hl : (g.procs i).locked = true) :
      Step N lockf linkf g (setProc g i { g.procs i with pc := PC.success })
  /-- A contender's bounded blocking wait returns 0: `nanosleep`, `close(fd)`,
  next loop iteration. -/
  | waitRetry (g : GState N) (i : Fin N)
      (h : (g.procs i).pc = PC.opened)
      (hl : (g.procs i).locked = false) :
      Step N lockf linkf g (setProc g i { g.procs i with pc := PC.loop, fd := -1 })
  /-- A contender's bounded blocking wait ends in timeout (`-ETIMEDOUT`) or a
  genuine error: fatal, to the cleanup path. -/
  | waitFatal (g : GState N) (i : Fin N)
      (h : (g.procs i).pc = PC.opened)
      (hl : (g.procs i).locked = false) :
      Step N lockf linkf g (setProc g i { g.procs i with pc := PC.cleanA })
  /-- The winner's `unlink(linkfile)` right before `return 0`. -/
  | successUnlink (g : GState N) (i : Fin N)
      (h : (g.procs i).pc = PC.success) :
      Step N lockf linkf g
        (setProc { g with fs := unlinkSys g.fs (linkf i) } i
          { g.procs i with pc := PC.done })
  /-- Defensive ownership recovery of `mnt_unlock_file`: `locked == 0` but
  both paths stat to the same inode, so mark the handle as owner. -/
  | cleanRecover (g : GState N) (i : Fin N) (a : Nat)
      (h : (g.procs i).pc = PC.cleanA)
      (hl : (g.procs i).locked = false)
      (ha : statIno g.fs lockf = some a)
      (hb : statIno g.fs (linkf i) = some a) :
      Step N lockf linkf g (setProc g i { g.procs i with pc := PC.cleanB, locked := true })
  /-- The recovery condition does not hold: move on unchanged. -/
  | cleanNoRecover (g : GState N) (i : Fin N)
      (h : (g.procs i).pc = PC.cleanA)
      (hc : ¬ ((g.procs i).locked = false ∧
        ∃ a, statIno g.fs lockf = some a ∧ statIno g.fs (linkf i) = some a)) :
      Step N lockf linkf g (setProc g i { g.procs i with pc := PC.cleanB })
  /-- Cleanup `unlink(linkfile)`. -/
  | cleanUnlinkLink (g : GState N) (i : Fin N)
      (h : (g.procs i).pc = PC.cleanB) :
      Step N lockf linkf g
        (setProc { g with fs := unlinkSys g.fs (linkf i) } i
          { g.procs i with pc := PC.cleanC })
  /-- Cleanup `close(lockfile_fd)` (no filesystem effect). -/
  | cleanClose (g : GState N) (i : Fin N)
      (h : (g.procs i).pc = PC.cleanC) :
      Step N lockf linkf g (setProc g i { g.procs i with pc := PC.cleanD })
  /-- Cleanup `unlink(lockfile)` of an owner. -/
  | cleanUnlinkLock (g : GState N) (i : Fin N)
      (h : (g.procs i).pc = PC.cleanD)
      (hl : (g.procs i).locked = true) :
      Step N lockf linkf g
        (setProc { g with fs := unlinkSys g.fs lockf } i
          { g.procs i with pc := PC.cleanE })
  /-- A non-owner skips the `unlink(lockfile)`. -/
  | cleanSkip (g : GState N) (i : Fin N)
      (h : (g.procs i).pc = PC.cleanD)
      (hl : (g.procs i).locked = false) :
      Step N lockf linkf g (setProc g i { g.procs i with pc := PC.cleanE })
  /-- Cleanup epilogue `ml->locked = 0; ml->lockfile_fd = -1;` and the error
  return of `mnt_lock_file`. -/
  | cleanFinish (g : GState N) (i : Fin N)
      (h : (g.procs i).pc = PC.cleanE) :
      Step N lockf linkf g
        (setProc g i { g.procs i with pc := PC.failed, locked := false, fd := -1 })

/-- Initial state of the contention scenario: every process is about to call
`mnt_lock_file` on a fresh handle (`locked == 0`, `lockfile_fd == -1`), inode
numbers recorded in the filesystem are consistent with the freshness counter,
and no stale per-owner link file of a contender is present (their ids are
unique, so a fresh handle's link path does not exist yet).  A stale lock file
left by a crashed unrelated owner is allowed. -/
def CleanInit (N : Nat) (linkf : Fin N → String) (g : GState N) : Prop :=
  (∀ i, g.procs i = { pc := PC.start, locked := false, fd := -1 }) ∧
  (∀ p n, statIno g.fs p = some n → n < g.fs.next) ∧
  (∀ i, statIno g.fs (linkf i) = none)

/-- Inductive invariant of the interleaved system.  `critUniq` is the
mutual-exclusion property: at most one process has `locked == 1` while its
counter is in the critical range (`critPC`: from winning the link through the
cleanup's `unlink(lockfile)`); a process at `cleanE` may still carry a stale
`locked == 1` after deleting the lock file and before the flag reset, which
is exactly the transient the source allows.  Support: a critical owner's lock
file exists (`lockPresent`); processes at `start`, `loop` or `failed` are
never owners (`plainUnlocked`); a link file carrying the same inode as the
lock file belongs to the owner (`linkOwner`); link files of distinct
processes never alias (`linkDistinct`); all recorded inodes are below the
freshness counter (`fresh`); past its own `unlink(linkfile)` a process's link
file stays absent (`linkGone`). -/
structure Inv (N : Nat) (lockf : String) (linkf : Fin N → String) (g : GState N) : Prop where
  critUniq : ∀ i j, (g.procs i).locked = true → critPC ((g.procs i).pc) →
    (g.procs j).locked = true → critPC ((g.procs j).pc) → i = j
  lockPresent : ∀ i, (g.procs i).locked = true → critPC ((g.procs i).pc) →
    ∃ n, statIno g.fs lockf = some n
  plainUnlocked : ∀ i, plainPC ((g.procs i).pc) → (g.procs i).locked = false
  linkOwner : ∀ i a, statIno g.fs (linkf i) = some a → statIno g.fs lockf = some a →
    (g.procs i).locked = true
  linkDistinct : ∀ i j a, statIno g.fs (linkf i) = some a →
    statIno g.fs (linkf j) = some a → i = j
  fresh : ∀ p n, statIno g.fs p = some n → n < g.fs.next
  linkGone : ∀ i, gonePC ((g.procs i).pc) → statIno g.fs (linkf i) = none

/-!
Concrete states used by counterexamples and witnesses.
-/

/-- A filesystem holding only a stale lock file `"f~"` (inode 1) and a stale
link file `"f~.7"` hard-linked to it (same inode 1): the situation left
behind by a crashed owner with id 7 that linked but never cleaned up. -/
def c3fs : Fs := { next := 2, names := [("f~", 1), ("f~.7", 1)], inodes := [(1, ⟨0, 384⟩)] }

/-- A filesystem with a stale lock file `"f~"` (inode 1, held by nobody) and
this process's freshly created link file `"f~.7"` (inode 2). -/
def c1fs : Fs :=
  { next := 3, names := [("f~", 1), ("f~.7", 2)], inodes := [(1, ⟨0, 384⟩), (2, ⟨0, 384⟩)] }

/-- A fresh handle for data file `"f"` with owner id 7. -/
def c1ml : mnt_lock :=
  { lockfile := some "f~", linkfile := some "f~.7", lockfile_fd := -1, locked := false }

/-- Loop iteration in which the blocking wait is interrupted (`EINTR`) at
second 5, well before the deadline at second 30. -/
def c1ev : IterEv :=
  { linkInj := none, openInj := none, tOpen := 0, tWait := 5, waitRes := .ferr EINTR }

/-- A follow-up iteration whose blocking wait would succeed — available to
the run, but never reached. -/
def c1ok : IterEv :=
  { linkInj := none, openInj := none, tOpen := 0, tWait := 6, waitRes := .ok }

/-- Filesystem state after the `C1` counterexample run: the link file has
been unlinked by the cleanup path, the stale lock file remains. -/
def c1fsX : Fs :=
  { next := 3, names := [("f~", 1)], inodes := [(1, ⟨0, 384⟩), (2, ⟨0, 384⟩)] }

/-- A filesystem where the link path `"f~.7"` already holds a file of size 3
(inode 7). -/
def c6fs : Fs := { next := 8, names := [("f~.7", 7)], inodes := [(7, ⟨3, 384⟩)] }

/-- Filesystem for the `C7` witness: stale lock file plus this process's link
file, no aliasing. -/
def c7fs : Fs := c1fs

/-- Handle for the `C7` witness. -/
def c7ml : mnt_lock := c1ml

/-- Iteration whose `open(lockfile)` fails with injected `ENOENT` (the lock
file vanished between `link` and `open`) at second 0, before the deadline. -/
def c7ev : IterEv :=
  { linkInj := none, openInj := some ENOENT, tOpen := 0, tWait := 0, waitRes := .ok }

/-- Iteration whose `open(lockfile)` fails with `EACCES` (13): fatal. -/
def c7ev2 : IterEv :=
  { linkInj := none, openInj := some 13, tOpen := 0, tWait := 0, waitRes := .ok }

/-- Empty filesystem. -/
def c8fs : Fs := { next := 0, names := [], inodes := [] }

/-- Handle for the `C8` witness. -/
def c8ml : mnt_lock := c1ml

/-- Oracle whose initial `open(linkfile, O_CREAT)` fails with `EACCES`. -/
def c8oracle : LockOracle := { creatInj := some 13, t0 := 0, iters := [] }

/-- Number of contenders in the `C9` witness. -/
def c9N : Nat := 50

/-- Shared lock file path of the `C9` witness. -/
def c9lockf : String := "mtab~"

/-- Per-process link file paths of the `C9` witness: 50 distinct owner ids. -/
def c9linkf (i : Fin c9N) : String := "mtab~." ++ toString i.val

/-- Process index 0 of the `C9` witness. -/
def c9i0 : Fin c9N := ⟨0, by decide⟩

/-- Process index 1 of the `C9` witness. -/
def c9i1 : Fin c9N := ⟨1, by decide⟩

/-- Initial global state of the `C9` witness: empty filesystem, 50 processes
about to call `mnt_lock_file`. -/
def c9g0 : GState c9N :=
  { fs := { next := 0, names := [], inodes := [] },
    procs := fun _ => { pc := PC.start, locked := false, fd := -1 } }

/-- State after process 0 created its link file. -/
def c9g1 : GState c9N :=
  setProc { c9g0 with fs := (openCreat c9g0.fs (c9linkf c9i0) 384).1 } c9i0
    { c9g0.procs c9i0 with pc := PC.loop }

/-- State after process 0 additionally won the `link` race: it owns the
lock. -/
def c9g2 : GState c9N :=
  setProc { c9g1 with fs := addName c9g1.fs c9lockf 0 } c9i0
    { c9g1.procs c9i0 with pc := PC.linked, locked := true }

/-- Process 0's `open(lockfile)` fails spuriously (for instance `EMFILE`):
fatal, so it enters the cleanup path still carrying `locked == 1`. -/
def c9g3 : GState c9N :=
  setProc c9g2 c9i0 { c9g2.procs c9i0 with pc := PC.cleanA, fd := -1 }

/-- The ownership recovery does not fire (`locked` is already 1). -/
def c9g4 : GState c9N :=
  setProc c9g3 c9i0 { c9g3.procs c9i0 with pc := PC.cleanB }

/-- Process 0's cleanup unlinks its link file. -/
def c9g5 : GState c9N :=
  setProc { c9g4 with fs := unlinkSys c9g4.fs (c9linkf c9i0) } c9i0
    { c9g4.procs c9i0 with pc := PC.cleanC }

/-- Process 0's cleanup closes the descriptor. -/
def c9g6 : GState c9N :=
  setProc c9g5 c9i0 { c9g5.procs c9i0 with pc := PC.cleanD }

/-- Process 0's cleanup unlinks the lock file (source line 258); its
`locked` flag is still 1 until the reset at line 260. -/
def c9g7 : GState c9N :=
  setProc { c9g6 with fs := unlinkSys c9g6.fs c9lockf } c9i0
    { c9g6.procs c9i0 with pc := PC.cleanE }

/-- Process 1 creates its link file while process 0 sits between the unlink
and the flag reset. -/
def c9g8 : GState c9N :=
  setProc { c9g7 with fs := (openCreat c9g7.fs (c9linkf c9i1) 384).1 } c9i1
    { c9g7.procs c9i1 with pc := PC.loop }

/-- Process 1 wins the now-vacant `link` race: at this instant both process 0
(mid-cleanup) and process 1 have `locked == 1`. -/
def c9g9 : GState c9N :=
  setProc { c9g8 with fs := addName c9g8.fs c9lockf 1 } c9i1
    { c9g8.procs c9i1 with pc := PC.linked, locked := true }

/-!
Basic lemmas about the filesystem model.
-/

theorem lookupName_filter (l : List (String × Nat)) (p q : String) :
    lookupName q (l.filter (fun r => r.1 != p)) =
      if q = p then none else lookupName q l := by
  induction l with
  | nil => by_cases h : q = p <;> simp [lookupName, h]
  | cons a t ih =>
    obtain ⟨k, v⟩ := a
    by_cases hkp : k = p
    · subst hkp
      by_cases hq : q = k
      · subst hq
        simp [List.filter_cons, lookupName, ih]
      · simp [List.filter_cons, lookupName, hq, ih]
    · by_cases hq : q = k
      · subst hq
        simp [List.filter_cons, lookupName, hkp, ih]
      · simp [List.filter_cons, lookupName, hkp, hq, ih]

theorem statIno_unlink (fs : Fs) (p q : String) :
    statIno (unlinkSys fs p) q = if q = p then none else statIno fs q :=
  lookupName_filter fs.names p q

theorem filter_ne_of_lookup_none (l : List (String × Nat)) (p : String)
    (h : lookupName p l = none) : l.filter (fun r => r.1 != p) = l := by
  induction l with
  | nil => rfl
  | cons a t ih =>
    obtain ⟨k, v⟩ := a
    by_cases hp : p = k
    · subst hp
      simp [lookupName] at h
    · have hk : ¬ (k = p) := fun hh => hp hh.symm
      rw [lookupName] at h
      rw [if_neg hp] at h
      simp [List.filter_cons, hk, ih h]

theorem unlink_absent (fs : Fs) (p : String) (h : statIno fs p = none) :
    unlinkSys fs p = fs := by
  unfold unlinkSys
  rw [filter_ne_of_lookup_none fs.names p h]

theorem statIno_addName (fs : Fs) (p : String) (n : Nat) (q : String) :
    statIno (addName fs p n) q = if q = p then some n else statIno fs q := rfl

theorem unlink_next (fs : Fs) (p : String) : (unlinkSys fs p).next = fs.next := rfl

theorem addName_next (fs : Fs) (p : String) (n : Nat) :
    (addName fs p n).next = fs.next := rfl

theorem openCreat_present (fs : Fs) (p : String) (mode n : Nat)
    (h : statIno fs p = some n) : openCreat fs p mode = (fs, n) := by
  unfold openCreat
  rw [h]

theorem openCreat_absent_fst (fs : Fs) (p : String) (mode : Nat)
    (h : statIno fs p = none) :
    (openCreat fs p mode).1 =
      { next := fs.next + 1, names := (p, fs.next) :: fs.names,
        inodes := (fs.next, { size := 0, mode := mode }) :: fs.inodes } := by
  unfold openCreat
  rw [h]

theorem statIno_openCreat_absent (fs : Fs) (p : String) (mode : Nat) (q : String)
    (h : statIno fs p = none) :
    statIno (openCreat fs p mode).1 q =
      if q = p then some fs.next else statIno fs q := by
  rw [openCreat_absent_fst fs p mode h]
  rfl

theorem openCreat_next_absent (fs : Fs) (p : String) (mode : Nat)
    (h : statIno fs p = none) : (openCreat fs p mode).1.next = fs.next + 1 := by
  rw [openCreat_absent_fst fs p mode h]

/-!
Lemmas about `mnt_unlock_file`.
-/

theorem mnt_unlock_file_some (fs : Fs) (m : mnt_lock) :
    mnt_unlock_file fs (some m) =
      ((mnt_unlock_file_body fs m).1, some (mnt_unlock_file_body fs m).2) := rfl

theorem unlock_body_snd (fs : Fs) (m : mnt_lock) :
    (mnt_unlock_file_body fs m).2 = { m with locked := false, lockfile_fd := -1 } := rfl

theorem unlock_body_locked (fs : Fs) (m : mnt_lock) :
    (mnt_unlock_file_body fs m).2.locked = false := rfl

theorem unlock_body_fd (fs : Fs) (m : mnt_lock) :
    (mnt_unlock_file_body fs m).2.lockfile_fd = -1 := rfl

/-- After `mnt_unlock_file` the link file is gone: the body unlinks it
unconditionally, and a possible later `unlink(lockfile)` cannot bring it
back. -/
theorem unlock_body_linkfile_gone (fs : Fs) (m : mnt_lock) (li : String)
    (hli : m.linkfile = some li) :
    statIno (mnt_unlock_file_body fs m).1 li = none := by
  obtain ⟨lo?, li?, fd, lk⟩ := m
  simp only at hli
  subst hli
  cases lk with
  | true =>
    cases lo? with
    | none => simp [mnt_unlock_file_body, statIno_unlink]
    | some lo => simp [mnt_unlock_file_body, statIno_unlink]
  | false =>
    cases lo? with
    | none => simp [mnt_unlock_file_body, statIno_unlink]
    | some lo =>
      cases hsa : statIno fs lo with
      | none =>
        cases hsb : statIno fs li with
        | none => simp [mnt_unlock_file_body, hsa, hsb, statIno_unlink]
        | some b => simp [mnt_unlock_file_body, hsa, hsb, statIno_unlink]
      | some a =>
        cases hsb : statIno fs li with
        | none => simp [mnt_unlock_file_body, hsa, hsb, statIno_unlink]
        | some b =>
          by_cases hab : a = b <;>
            simp [mnt_unlock_file_body, hsa, hsb, hab, statIno_unlink]

/-- `mnt_unlock_file` is the identity on a handle that is already fully
released (not locked, descriptor invalid, link file absent). -/
theorem unlock_body_noop (fs : Fs) (m : mnt_lock)
    (hlk : m.locked = false) (hfd : m.lockfile_fd = -1)
    (hli : ∀ li, m.linkfile = some li → statIno fs li = none) :
    mnt_unlock_file_body fs m = (fs, m) := by
  obtain ⟨lo?, li?, fd, lk⟩ := m
  simp only at hlk hfd
  subst hlk
  subst hfd
  cases li? with
  | none =>
    cases lo? <;> rfl
  | some li =>
    have hnone : statIno fs li = none := hli li rfl
    cases lo? with
    | none =>
      simp [mnt_unlock_file_body, hnone, unlink_absent fs li hnone]
    | some lo =>
      cases hstat : statIno fs lo <;>
        simp [mnt_unlock_file_body, hstat, hnone, unlink_absent fs li hnone]

/-!
Claims.
-/

/-- C2 (counterexample): `mnt_new_lock` does not fail on the empty string.
`mnt_new_lock("", 5)` returns a handle (whose lock file path is just `"~"`),
refuting "create fails with InvalidArgument whenever targetFilePath is the
empty string". -/
theorem claim_C2_counterexample :
    mnt_new_lock (some "") 5 99 ≠ none ∧
    mnt_new_lock (some "") 5 99 =
      some { lockfile := some "~", linkfile := some "~.5",
             lockfile_fd := -1, locked := false } := by
  constructor
  · decide
  · decide

/-- C2 (amended): `mnt_new_lock` fails (returns NULL) exactly when the data
file path is absent (the NULL pointer); for every present path string —
including the empty string — it returns, allocation permitting, a handle with
the two computed paths, performing no I/O and no other side effect. -/
theorem claim_C2 (d : String) (id pid : Int) :
    mnt_new_lock none id pid = none ∧
    mnt_new_lock (some d) id pid =
      some { lockfile := some (d ++ "~"),
             linkfile := some (d ++ "~." ++ toString (if id = 0 then pid else id)),
             lockfile_fd := -1, locked := false } :=
  ⟨rfl, rfl⟩

/-- C4: for every target path `d` and owner id, `mnt_new_lock` computes the
lock file path as `d ++ "~"` and the link file path as `d ++ "~." ++ id`,
where the id defaults to the calling process's pid when 0 is supplied; being
a pure function of its arguments, the computation is deterministic. -/
theorem claim_C4 (d : String) (id pid : Int) :
    mnt_new_lock (some d) id pid =
      some { lockfile := some (d ++ "~"),
             linkfile := some (d ++ "~." ++ toString (if id = 0 then pid else id)),
             lockfile_fd := -1, locked := false } := rfl

/-- C3 (counterexample): on a filesystem where a stale link file for the same
owner id is already hard-linked to the lock file (inode 1 at both paths in
`c3fs`), `create` followed immediately by `release` (no acquire) deletes the
pre-existing lock file: the defensive inode recovery treats the handle as the
owner.  This refutes the unconditional "for all valid paths" part of the
claim. -/
theorem claim_C3_counterexample :
    statIno c3fs "f~" = some 1 ∧
    statIno (mnt_unlock_file c3fs (mnt_new_lock (some "f") 7 99)).1 "f~" = none := by
  constructor
  · decide
  · decide

/-- C3 (amended): a handle with `owns_lock == false` whose link file is not
hard-linked to the lock file (no shared inode) never loses the lock file to
`mnt_unlock_file`; in particular `create` followed immediately by `release`
leaves any pre-existing file at the lock path in place provided that file is
not already hard-linked to the handle's freshly computed link path (otherwise
the defensive ownership recovery deletes it, see the counterexample). -/
theorem claim_C3 :
    (∀ (fs : Fs) (m : mnt_lock) (lo li : String),
      m.locked = false → m.lockfile = some lo → m.linkfile = some li →
      sameInodeB fs lo li = false →
      statIno (mnt_unlock_file fs (some m)).1 lo = statIno fs lo)
    ∧
    (∀ (fs : Fs) (d : String) (id pid : Int),
      sameInodeB fs (d ++ "~") (d ++ "~." ++ toString (if id = 0 then pid else id)) = false →
      statIno (mnt_unlock_file fs (mnt_new_lock (some d) id pid)).1 (d ++ "~") =
        statIno fs (d ++ "~")) := by
  have main : ∀ (fs : Fs) (m : mnt_lock) (lo li : String),
      m.locked = false → m.lockfile = some lo → m.linkfile = some li →
      sameInodeB fs lo li = false →
      statIno (mnt_unlock_file fs (some m)).1 lo = statIno fs lo := by
    intro fs m lo li hlk hlo hli hsame
    obtain ⟨lo?, li?, fd, lk⟩ := m
    simp only at hlk hlo hli
    subst hlk
    subst hlo
    subst hli
    by_cases hll : lo = li
    · subst hll
      have hstat : statIno fs lo = none := by
        cases hstat : statIno fs lo with
        | none => rfl
        | some a => simp [sameInodeB, hstat] at hsame
      simp [mnt_unlock_file, mnt_unlock_file_body, hstat, statIno_unlink]
    · cases hsa : statIno fs lo with
      | none =>
        simp [mnt_unlock_file, mnt_unlock_file_body, hsa, statIno_unlink, hll]
      | some a =>
        cases hsb : statIno fs li with
        | none =>
          simp [mnt_unlock_file, mnt_unlock_file_body, hsa, hsb, statIno_unlink, hll]
        | some b =>
          have hab : ¬ (a = b) := by
            intro hab
            simp [sameInodeB, hsa, hsb, hab] at hsame
          simp [mnt_unlock_file, mnt_unlock_file_body, hsa, hsb, hab,
            statIno_unlink, hll]
  refine ⟨main, ?_⟩
  intro fs d id pid hsame
  exact main fs _ _ _ rfl rfl rfl hsame

/-- C3 (witness): on the empty filesystem no aliasing is possible, and
create-then-release preserves the (absent) lock file entry. -/
theorem claim_C3_witness :
    statIno (mnt_unlock_file c8fs (mnt_new_lock (some "f") 7 99)).1 ("f" ++ "~") =
      statIno c8fs ("f" ++ "~") :=
  claim_C3.2 c8fs "f" 7 99 (by decide)

/-- C5: `mnt_unlock_file` is idempotent — applying it a second time to the
filesystem and handle produced by a first application changes nothing: the
first call has already unlinked the link file, reset `locked` and invalidated
the descriptor, so the second call's recovery check fails and all its actions
are no-ops. -/
theorem claim_C5 (fs : Fs) (ml : Option mnt_lock) :
    mnt_unlock_file (mnt_unlock_file fs ml).1 (mnt_unlock_file fs ml).2 =
      mnt_unlock_file fs ml := by
  cases ml with
  | none => rfl
  | some m =>
    have hnoop : mnt_unlock_file_body (mnt_unlock_file_body fs m).1
        (mnt_unlock_file_body fs m).2 =
        ((mnt_unlock_file_body fs m).1, (mnt_unlock_file_body fs m).2) := by
      apply unlock_body_noop
      · rfl
      · rfl
      · intro li hli
        have hml : m.linkfile = some li := hli
        exact unlock_body_linkfile_gone fs m li hml
    show mnt_unlock_file (mnt_unlock_file_body fs m).1
        (some (mnt_unlock_file_body fs m).2) =
      ((mnt_unlock_file_body fs m).1, some (mnt_unlock_file_body fs m).2)
    rw [mnt_unlock_file_some, hnoop]

/-- C6 (counterexample): step 1 of `mnt_lock_file` opens the link file with
`O_WRONLY|O_CREAT` but *without* `O_TRUNC`: on `c6fs`, where the link path
already holds a 3-byte file, the open leaves the filesystem untouched and the
file is still 3 bytes — not empty — afterwards.  This refutes "after this
step the file at owner_link_path is empty". -/
theorem claim_C6_counterexample :
    fileSize c6fs "f~.7" = some 3 ∧
    (openCreat c6fs "f~.7" 384).1 = c6fs ∧
    fileSize (openCreat c6fs "f~.7" 384).1 "f~.7" = some 3 ∧
    fileSize (openCreat c6fs "f~.7" 384).1 "f~.7" ≠ some 0 := by
  refine ⟨by decide, by decide, by decide, by decide⟩

/-- C6 (amended): step 1 of acquire opens the link file with owner-only
read/write permission and closes it immediately; when the path is absent an
empty file is created, but a pre-existing file is opened as-is (no
truncation).  A failure of this open makes acquire report the corresponding
error (`-errno`) immediately — after running the release cleanup — without
any retry. -/
theorem claim_C6 (fs : Fs) (p : String) (mode : Nat) :
    (statIno fs p = none →
      (openCreat fs p mode).1 =
        { next := fs.next + 1, names := (p, fs.next) :: fs.names,
          inodes := (fs.next, { size := 0, mode := mode }) :: fs.inodes } ∧
      fileSize (openCreat fs p mode).1 p = some 0)
    ∧ (∀ n, statIno fs p = some n → (openCreat fs p mode).1 = fs)
    ∧ (∀ (fs2 : Fs) (m : mnt_lock) (o : LockOracle) (e : Nat) (lf lk : String),
        m.locked = false → m.lockfile = some lk → m.linkfile = some lf →
        o.creatInj = some e → 0 < e →
        mnt_lock_file fs2 (some m) o =
          some ((mnt_unlock_file_body fs2 m).1, some (mnt_unlock_file_body fs2 m).2,
            -(e : Int))) := by
  refine ⟨?_, ?_, ?_⟩
  · intro h
    constructor
    · exact openCreat_absent_fst fs p mode h
    · rw [openCreat_absent_fst fs p mode h]
      simp [fileSize, statIno, lookupName, lookupIno]
  · intro n h
    rw [openCreat_present fs p mode n h]
  · intro fs2 m o e lf lk hlkd hlo hli hcreat he
    simp only [mnt_lock_file, mnt_lock_get_lockfile, mnt_lock_get_linkfile,
      hlkd, hlo, hli, hcreat, if_pos he]
    simp [he]

/-- C6 (witness): a concrete failing initial open (errno 13, `EACCES`) makes
acquire return `-13` immediately after cleanup. -/
theorem claim_C6_witness :
    mnt_lock_file c8fs (some c8ml) c8oracle =
      some ((mnt_unlock_file_body c8fs c8ml).1, some (mnt_unlock_file_body c8fs c8ml).2,
        -(13 : Int)) :=
  (claim_C6 c8fs "q" 0).2.2 c8fs c8ml c8oracle 13 "f~.7" "f~" rfl rfl rfl rfl (by decide)

/-- A non-fatal link attempt keeps the handle's two path fields. -/
theorem linkStep_proceed_fields (fs fs1 : Fs) (ml ml1 : mnt_lock)
    (linkf lockf : String) (inj : Option Nat)
    (h : linkStep fs ml linkf lockf inj = .proceed fs1 ml1) :
    ml1.lockfile = ml.lockfile ∧ ml1.linkfile = ml.linkfile := by
  unfold linkStep at h
  cases hls : linkSys fs linkf lockf inj with
  | ok fs2 =>
    simp only [hls, LinkStepOut.proceed.injEq] at h
    obtain ⟨h1, h2⟩ := h
    subst h2
    exact ⟨rfl, rfl⟩
  | err e =>
    simp only [hls] at h
    by_cases he : e = EEXIST
    · rw [if_pos he] at h
      simp only [LinkStepOut.proceed.injEq] at h
      obtain ⟨h1, h2⟩ := h
      subst h2
      exact ⟨rfl, rfl⟩
    · rw [if_neg he] at h
      cases h

/-- C7: inside the acquire loop, when the open of the lock file fails, the
source retries from the link attempt (with `locked` reset and the descriptor
invalid) exactly when the error is `ENOENT` and the deadline has not passed;
any other failure, or `ENOENT` past the deadline, is fatal and reported as
`-errno` after the release cleanup. -/
theorem claim_C7 (fs fs1 : Fs) (ml ml1 : mnt_lock) (lockf linkf : String)
    (maxtime : Nat) (ev : IterEv) (rest : List IterEv) (e : Nat)
    (hlink : linkStep fs ml linkf lockf ev.linkInj = .proceed fs1 ml1)
    (hopen : openSys fs1 lockf ev.openInj = .err e) :
    (e = ENOENT → ev.tOpen < maxtime →
      acquireLoop fs ml lockf linkf maxtime (ev :: rest) =
        acquireLoop fs1 { ml1 with locked := false, lockfile_fd := -1 }
          lockf linkf maxtime rest)
    ∧ (0 < e → ¬ (e = ENOENT ∧ ev.tOpen < maxtime) →
      acquireLoop fs ml lockf linkf maxtime (ev :: rest) =
        some ((mnt_unlock_file_body fs1 { ml1 with lockfile_fd := -1 }).1,
          (mnt_unlock_file_body fs1 { ml1 with lockfile_fd := -1 }).2, -(e : Int))) := by
  constructor
  · intro he ht
    simp only [acquireLoop, hlink, hopen]
    rw [if_pos ⟨he, ht⟩]
  · intro hpos hcond
    simp only [acquireLoop, hlink, hopen]
    rw [if_neg hcond, if_pos hpos]

/-- C7 (witness): with a stale lock file present, the link fails with
`EEXIST`, the open then fails with an injected `ENOENT` at second 0 (before
the deadline at 30), and the loop restarts from the link attempt. -/
theorem claim_C7_witness :
    acquireLoop c7fs c7ml "f~" "f~.7" 30 [c7ev] =
      acquireLoop c7fs { c7ml with locked := false, lockfile_fd := -1 } "f~" "f~.7" 30 [] :=
  (claim_C7 c7fs c7fs c7ml c7ml "f~" "f~.7" 30 c7ev [] ENOENT (by decide)
    (by decide)).1 rfl (by decide)

/-- An interrupted blocking wait returns 1 no matter how the clock stands. -/
theorem mnt_wait_lock_intr (now maxtime : Nat) :
    mnt_wait_lock now maxtime (.ferr EINTR) = 1 := by
  unfold mnt_wait_lock
  split
  · rfl
  · simp

/-- `mnt_wait_lock` only ever returns 1, 0, or a non-positive `-errno`. -/
theorem mnt_wait_lock_cases (now maxtime : Nat) (r : FcntlRes) :
    mnt_wait_lock now maxtime r = 1 ∨ mnt_wait_lock now maxtime r ≤ 0 := by
  unfold mnt_wait_lock
  split
  · exact Or.inl rfl
  · cases r with
    | ok => exact Or.inr le_rfl
    | ferr e =>
      show (if e = EINTR then (1 : Int) else -(e : Int)) = 1 ∨
        (if e = EINTR then (1 : Int) else -(e : Int)) ≤ 0
      by_cases he : e = EINTR
      · rw [if_pos he]
        exact Or.inl rfl
      · rw [if_neg he]
        have hnn : (0 : Int) ≤ (e : Int) := Int.ofNat_nonneg e
        exact Or.inr (by omega)

/-- C1 (counterexample): against a stale lock file, an acquire whose blocking
wait is interrupted (`EINTR`) at second 5 — well before the 30-second
deadline (`c1ev.tWait < 0 + MOUNTLOCK_MAXTIME`) — does not retry: even with a
further iteration event available (`c1ok`), `mnt_lock_file` returns
`-ETIMEDOUT` at once, the cleanup having run.  This refutes "interruption
before the deadline is treated as a transient condition and retried; only
when the deadline has passed does acquire report Timeout". -/
theorem claim_C1_counterexample :
    c1ev.waitRes = .ferr EINTR ∧
    c1ev.tWait < 0 + MOUNTLOCK_MAXTIME ∧
    mnt_lock_file c1fs (some c1ml) { creatInj := none, t0 := 0, iters := [c1ev, c1ok] } =
      some (c1fsX, some c1ml, -(ETIMEDOUT : Int)) := by
  refine ⟨by decide, by decide, by decide⟩

/-- C1 (amended): interruption of the blocking record-lock wait makes
`mnt_wait_lock` return 1 — the same value as deadline expiry — regardless of
whether the deadline has passed, and `mnt_lock_file` then reports
`-ETIMEDOUT` after the release cleanup.  The close-descriptor/sleep/retry
path is taken exactly when the blocking wait returns 0 (the contender
obtained the record lock): the five conjuncts give interruption-returns-1,
the `-ETIMEDOUT` outcome for result 1, the fatal `-errno` outcome for a
negative result, the retry equation for result 0, and — for every non-zero
result — a negative error return instead of a retry. -/
theorem claim_C1 (fs fs1 : Fs) (ml ml1 : mnt_lock) (lockf linkf : String)
    (maxtime : Nat) (ev : IterEv) (rest : List IterEv) (n : Nat)
    (hlink : linkStep fs ml linkf lockf ev.linkInj = .proceed fs1 ml1)
    (hopen : openSys fs1 lockf ev.openInj = .ok n)
    (hl : ml1.locked = false) :
    mnt_wait_lock ev.tWait maxtime (.ferr EINTR) = 1
    ∧ (mnt_wait_lock ev.tWait maxtime ev.waitRes = 1 →
        acquireLoop fs ml lockf linkf maxtime (ev :: rest) =
          some ((mnt_unlock_file_body fs1 { ml1 with lockfile_fd := (n : Int) }).1,
            (mnt_unlock_file_body fs1 { ml1 with lockfile_fd := (n : Int) }).2,
            -(ETIMEDOUT : Int)))
    ∧ (mnt_wait_lock ev.tWait maxtime ev.waitRes < 0 →
        acquireLoop fs ml lockf linkf maxtime (ev :: rest) =
          some ((mnt_unlock_file_body fs1 { ml1 with lockfile_fd := (n : Int) }).1,
            (mnt_unlock_file_body fs1 { ml1 with lockfile_fd := (n : Int) }).2,
            mnt_wait_lock ev.tWait maxtime ev.waitRes))
    ∧ (mnt_wait_lock ev.tWait maxtime ev.waitRes = 0 →
        acquireLoop fs ml lockf linkf maxtime (ev :: rest) =
          acquireLoop fs1 { ml1 with lockfile_fd := -1 } lockf linkf maxtime rest)
    ∧ (mnt_wait_lock ev.tWait maxtime ev.waitRes ≠ 0 →
        ∃ rc : Int, rc < 0 ∧
          acquireLoop fs ml lockf linkf maxtime (ev :: rest) =
            some ((mnt_unlock_file_body fs1 { ml1 with lockfile_fd := (n : Int) }).1,
              (mnt_unlock_file_body fs1 { ml1 with lockfile_fd := (n : Int) }).2,
              rc)) := by
  have hto : mnt_wait_lock ev.tWait maxtime ev.waitRes = 1 →
      acquireLoop fs ml lockf linkf maxtime (ev :: rest) =
        some ((mnt_unlock_file_body fs1 { ml1 with lockfile_fd := (n : Int) }).1,
          (mnt_unlock_file_body fs1 { ml1 with lockfile_fd := (n : Int) }).2,
          -(ETIMEDOUT : Int)) := by
    intro h1
    simp only [acquireLoop, hlink, hopen, hl]
    simp [h1]
  have herr : mnt_wait_lock ev.tWait maxtime ev.waitRes < 0 →
      acquireLoop fs ml lockf linkf maxtime (ev :: rest) =
        some ((mnt_unlock_file_body fs1 { ml1 with lockfile_fd := (n : Int) }).1,
          (mnt_unlock_file_body fs1 { ml1 with lockfile_fd := (n : Int) }).2,
          mnt_wait_lock ev.tWait maxtime ev.waitRes) := by
    intro h2
    have h1 : ¬ (mnt_wait_lock ev.tWait maxtime ev.waitRes = 1) := by omega
    simp only [acquireLoop, hlink, hopen, hl]
    simp [h1, h2]
  refine ⟨mnt_wait_lock_intr ev.tWait maxtime, hto, herr, ?_, ?_⟩
  · intro hz
    simp only [acquireLoop, hlink, hopen, hl]
    simp [hz]
  · intro hz
    rcases mnt_wait_lock_cases ev.tWait maxtime ev.waitRes with h1 | hle
    · exact ⟨-(ETIMEDOUT : Int), by decide, hto h1⟩
    · have h2 : mnt_wait_lock ev.tWait maxtime ev.waitRes < 0 := lt_of_le_of_ne hle hz
      exact ⟨mnt_wait_lock ev.tWait maxtime ev.waitRes, h2, herr h2⟩

/-- C1 (witness): the concrete interruption scenario at the loop level; the
wait at second 5 of 30 is interrupted (`mnt_wait_lock` returns 1) and the
iteration ends in `-ETIMEDOUT` with the cleanup state, never reaching the
second iteration event. -/
theorem claim_C1_witness :
    acquireLoop c1fs c1ml "f~" "f~.7" 30 [c1ev, c1ok] =
      some ((mnt_unlock_file_body c1fs { c1ml with lockfile_fd := (1 : Int) }).1,
        (mnt_unlock_file_body c1fs { c1ml with lockfile_fd := (1 : Int) }).2,
        -(ETIMEDOUT : Int)) :=
  (claim_C1 c1fs c1fs c1ml c1ml "f~" "f~.7" 30 c1ev [c1ok] 1 (by decide) (by decide)
    rfl).2.1 (by decide)

/-- Whenever the acquire loop returns an error code, the final handle state
is fully released: not locked, descriptor invalid, link file unlinked. -/
theorem acquireLoop_err_release (lockf linkf : String) (maxtime : Nat)
    (evs : List IterEv) :
    ∀ (fs : Fs) (ml : mnt_lock) (fs' : Fs) (ml' : mnt_lock) (rc : Int),
      ml.linkfile = some linkf →
      acquireLoop fs ml lockf linkf maxtime evs = some (fs', ml', rc) →
      rc < 0 →
      ml'.locked = false ∧ ml'.lockfile_fd = -1 ∧ statIno fs' linkf = none := by
  induction evs with
  | nil =>
    intro fs ml fs' ml' rc hlf h hrc
    simp [acquireLoop] at h
  | cons ev rest ih =>
    intro fs ml fs' ml' rc hlf h hrc
    simp only [acquireLoop] at h
    cases hls : linkStep fs ml linkf lockf ev.linkInj with
    | fatal rc2 =>
      simp only [hls, Option.some.injEq, Prod.mk.injEq] at h
      obtain ⟨h1, h2, h3⟩ := h
      subst h1
      subst h2
      exact ⟨unlock_body_locked fs ml, unlock_body_fd fs ml,
        unlock_body_linkfile_gone fs ml linkf hlf⟩
    | proceed fs1 ml1 =>
      have hfields := linkStep_proceed_fields fs fs1 ml ml1 linkf lockf ev.linkInj hls
      have hlf1 : ml1.linkfile = some linkf := hfields.2.trans hlf
      simp only [hls] at h
      cases hop : openSys fs1 lockf ev.openInj with
      | err e =>
        simp only [hop] at h
        by_cases hcond : e = ENOENT ∧ ev.tOpen < maxtime
        · rw [if_pos hcond] at h
          exact ih fs1 { ml1 with locked := false, lockfile_fd := -1 }
            fs' ml' rc hlf1 h hrc
        · rw [if_neg hcond] at h
          simp only [Option.some.injEq, Prod.mk.injEq] at h
          obtain ⟨h1, h2, h3⟩ := h
          subst h1
          subst h2
          exact ⟨unlock_body_locked _ _, unlock_body_fd _ _,
            unlock_body_linkfile_gone _ _ linkf hlf1⟩
      | ok n =>
        simp only [hop] at h
        cases hml1 : ml1.locked with
        | true =>
          simp only [hml1, if_true, Option.some.injEq, Prod.mk.injEq] at h
          obtain ⟨h1, h2, h3⟩ := h
          exact absurd hrc (by omega)
        | false =>
          simp only [hml1, Bool.false_eq_true, if_false] at h
          by_cases h1 : mnt_wait_lock ev.tWait maxtime ev.waitRes = 1
          · rw [if_pos h1] at h
            simp only [Option.some.injEq, Prod.mk.injEq] at h
            obtain ⟨ha, hb, hc⟩ := h
            subst ha
            subst hb
            exact ⟨unlock_body_locked _ _, unlock_body_fd _ _,
              unlock_body_linkfile_gone _ _ linkf hlf1⟩
          · rw [if_neg h1] at h
            by_cases h2 : mnt_wait_lock ev.tWait maxtime ev.waitRes < 0
            · rw [if_pos h2] at h
              simp only [Option.some.injEq, Prod.mk.injEq] at h
              obtain ⟨ha, hb, hc⟩ := h
              subst ha
              subst hb
              exact ⟨unlock_body_locked _ _, unlock_body_fd _ _,
                unlock_body_linkfile_gone _ _ linkf hlf1⟩
            · rw [if_neg h2] at h
              exact ih fs1 { ml1 with locked := false, lockfile_fd := -1 }
                fs' ml' rc hlf1 h hrc

/-- C8: whenever `mnt_lock_file` on a handle with both paths set returns an
error, a full release has run first: the returned handle has `locked ==
false` and an invalid descriptor, and its link file is no longer present in
the filesystem. -/
theorem claim_C8 (fs : Fs) (m : mnt_lock) (o : LockOracle) (fs' : Fs)
    (ml' : Option mnt_lock) (rc : Int) (lockf linkf : String)
    (hlo : m.lockfile = some lockf) (hli : m.linkfile = some linkf)
    (hrun : mnt_lock_file fs (some m) o = some (fs', ml', rc)) (hrc : rc < 0) :
    ∃ m2, ml' = some m2 ∧ m2.locked = false ∧ m2.lockfile_fd = -1 ∧
      statIno fs' linkf = none := by
  cases hml : m.locked with
  | true =>
    simp only [mnt_lock_file, hml, if_true, Option.some.injEq, Prod.mk.injEq] at hrun
    obtain ⟨h1, h2, h3⟩ := hrun
    exact absurd hrc (by omega)
  | false =>
    simp only [mnt_lock_file, mnt_lock_get_lockfile, mnt_lock_get_linkfile,
      hml, Bool.false_eq_true, if_false, hlo, hli] at hrun
    cases hcr : o.creatInj with
    | some e =>
      simp only [hcr, Option.some.injEq, Prod.mk.injEq] at hrun
      obtain ⟨h1, h2, h3⟩ := hrun
      subst h1
      subst h2
      exact ⟨(mnt_unlock_file_body fs m).2, rfl, unlock_body_locked fs m,
        unlock_body_fd fs m, unlock_body_linkfile_gone fs m linkf hli⟩
    | none =>
      simp only [hcr] at hrun
      cases hloop : acquireLoop (openCreat fs linkf 384).1 m lockf linkf
          (o.t0 + MOUNTLOCK_MAXTIME) o.iters with
      | none =>
        simp only [hloop] at hrun
        exact Option.noConfusion hrun
      | some r =>
        obtain ⟨a, b, c⟩ := r
        simp only [hloop, Option.some.injEq, Prod.mk.injEq] at hrun
        obtain ⟨h1, h2, h3⟩ := hrun
        subst h1
        subst h2
        subst h3
        have hprops := acquireLoop_err_release lockf linkf (o.t0 + MOUNTLOCK_MAXTIME)
          o.iters (openCreat fs linkf 384).1 m a b c hli hloop hrc
        exact ⟨b, rfl, hprops.1, hprops.2.1, hprops.2.2⟩

/-- C8 (witness): the failed acquire of the `C6` scenario (initial open
fails with errno 13) leaves a fully released handle and no link file. -/
theorem claim_C8_witness :
    ∃ m2, (some c8ml : Option mnt_lock) = some m2 ∧ m2.locked = false ∧
      m2.lockfile_fd = -1 ∧ statIno c8fs "f~.7" = none :=
  claim_C8 c8fs c8ml c8oracle c8fs (some c8ml) (-13) "f~" "f~.7" rfl rfl
    (by decide) (by decide)

theorem setProc_fs {N : Nat} (g : GState N) (i : Fin N) (p : PState) :
    (setProc g i p).fs = g.fs := rfl

theorem setProc_procs {N : Nat} (g : GState N) (i j : Fin N) (p : PState) :
    (setProc g i p).procs j = if j = i then p else g.procs j := rfl

/-- Invariant preservation for a transition that leaves the filesystem alone
and replaces process `i`'s state, under side conditions: the owner flag is
unchanged (`hlk`); a critical counter is only reached, while owning, from a
critical counter (`hcrit`); the plain counters are only reached unowned
(`hplain`); the past-unlink counters are only reached with the link file
already absent (`hgone`). -/
theorem inv_update_same_locked {N : Nat} {lockf : String} {linkf : Fin N → String}
    {g : GState N} (i : Fin N) (p : PState)
    (hI : Inv N lockf linkf g)
    (hlk : p.locked = (g.procs i).locked)
    (hcrit : p.locked = true → critPC p.pc → critPC ((g.procs i).pc))
    (hplain : plainPC p.pc → p.locked = false)
    (hgone : gonePC p.pc → statIno g.fs (linkf i) = none) :
    Inv N lockf linkf (setProc g i p) := by
  obtain ⟨u, lp, pu, lo, ld, fr, lg⟩ := hI
  refine ⟨?_, ?_, ?_, ?_, ?_, ?_, ?_⟩
  · intro a b ha hca hb hcb
    rw [setProc_procs] at ha hca hb hcb
    by_cases hai : a = i <;> by_cases hbi : b = i
    · rw [hai, hbi]
    · rw [if_pos hai] at ha hca
      rw [if_neg hbi] at hb hcb
      have ha' : (g.procs i).locked = true := by rw [← hlk]; exact ha
      exact hai.trans (u i b ha' (hcrit ha hca) hb hcb)
    · rw [if_neg hai] at ha hca
      rw [if_pos hbi] at hb hcb
      have hb' : (g.procs i).locked = true := by rw [← hlk]; exact hb
      exact (u a i ha hca hb' (hcrit hb hcb)).trans hbi.symm
    · rw [if_neg hai] at ha hca
      rw [if_neg hbi] at hb hcb
      exact u a b ha hca hb hcb
  · intro a ha hca
    rw [setProc_procs] at ha hca
    by_cases hai : a = i
    · rw [if_pos hai] at ha hca
      exact lp i (by rw [← hlk]; exact ha) (hcrit ha hca)
    · rw [if_neg hai] at ha hca
      exact lp a ha hca
  · intro a hpa
    rw [setProc_procs] at hpa ⊢
    by_cases hai : a = i
    · rw [if_pos hai] at hpa ⊢
      exact hplain hpa
    · rw [if_neg hai] at hpa ⊢
      exact pu a hpa
  · intro a m h1 h2
    rw [setProc_procs]
    by_cases hai : a = i
    · rw [if_pos hai]
      rw [hlk, ← hai]
      exact lo a m h1 h2
    · rw [if_neg hai]
      exact lo a m h1 h2
  · intro a b m h1 h2
    exact ld a b m h1 h2
  · intro q n h1
    exact fr q n h1
  · intro a hga
    rw [setProc_procs] at hga
    show statIno g.fs (linkf a) = none
    by_cases hai : a = i
    · rw [if_pos hai] at hga
      rw [hai]
      exact hgone hga
    · rw [if_neg hai] at hga
      exact lg a hga

/-- Invariant preservation for a transition that unlinks process `i`'s own
link file and replaces `i`'s state (the winner's `unlink(linkfile)` before
returning, and the cleanup's `unlink(linkfile)`); same side conditions, with
the link-file absence for `i` established by the unlink itself. -/
theorem inv_unlink_linkfile {N : Nat} {lockf : String} {linkf : Fin N → String}
    (hne : ∀ i, linkf i ≠ lockf)
    {g : GState N} (i : Fin N) (p : PState)
    (hI : Inv N lockf linkf g)
    (hlk : p.locked = (g.procs i).locked)
    (hcrit : p.locked = true → critPC p.pc → critPC ((g.procs i).pc))
    (hplain : plainPC p.pc → p.locked = false) :
    Inv N lockf linkf (setProc { g with fs := unlinkSys g.fs (linkf i) } i p) := by
  obtain ⟨u, lp, pu, lo, ld, fr, lg⟩ := hI
  have hlockfEq : statIno (unlinkSys g.fs (linkf i)) lockf = statIno g.fs lockf := by
    rw [statIno_unlink]
    exact if_neg (fun hh => hne i hh.symm)
  refine ⟨?_, ?_, ?_, ?_, ?_, ?_, ?_⟩
  · intro a b ha hca hb hcb
    rw [setProc_procs] at ha hca hb hcb
    by_cases hai : a = i <;> by_cases hbi : b = i
    · rw [hai, hbi]
    · rw [if_pos hai] at ha hca
      rw [if_neg hbi] at hb hcb
      have ha' : (g.procs i).locked = true := by rw [← hlk]; exact ha
      exact hai.trans (u i b ha' (hcrit ha hca) hb hcb)
    · rw [if_neg hai] at ha hca
      rw [if_pos hbi] at hb hcb
      have hb' : (g.procs i).locked = true := by rw [← hlk]; exact hb
      exact (u a i ha hca hb' (hcrit hb hcb)).trans hbi.symm
    · rw [if_neg hai] at ha hca
      rw [if_neg hbi] at hb hcb
      exact u a b ha hca hb hcb
  · intro a ha hca
    rw [setProc_procs] at ha hca
    show ∃ n, statIno (unlinkSys g.fs (linkf i)) lockf = some n
    rw [hlockfEq]
    by_cases hai : a = i
    · rw [if_pos hai] at ha hca
      exact lp i (by rw [← hlk]; exact ha) (hcrit ha hca)
    · rw [if_neg hai] at ha hca
      exact lp a ha hca
  · intro a hpa
    rw [setProc_procs] at hpa ⊢
    by_cases hai : a = i
    · rw [if_pos hai] at hpa ⊢
      exact hplain hpa
    · rw [if_neg hai] at hpa ⊢
      exact pu a hpa
  · intro a m h1 h2
    have h1' : statIno (unlinkSys g.fs (linkf i)) (linkf a) = some m := h1
    have h2' : statIno g.fs lockf = some m := by rw [← hlockfEq]; exact h2
    rw [statIno_unlink] at h1'
    by_cases hli : linkf a = linkf i
    · rw [if_pos hli] at h1'
      exact Option.noConfusion h1'
    · rw [if_neg hli] at h1'
      have hai : ¬ (a = i) := fun hh => hli (by rw [hh])
      rw [setProc_procs, if_neg hai]
      exact lo a m h1' h2'
  · intro a b m h1 h2
    have h1' : statIno (unlinkSys g.fs (linkf i)) (linkf a) = some m := h1
    have h2' : statIno (unlinkSys g.fs (linkf i)) (linkf b) = some m := h2
    rw [statIno_unlink] at h1' h2'
    by_cases h1i : linkf a = linkf i
    · rw [if_pos h1i] at h1'
      exact Option.noConfusion h1'
    · rw [if_neg h1i] at h1'
      by_cases h2i : linkf b = linkf i
      · rw [if_pos h2i] at h2'
        exact Option.noConfusion h2'
      · rw [if_neg h2i] at h2'
        exact ld a b m h1' h2'
  · intro q n h1
    have h1' : statIno (unlinkSys g.fs (linkf i)) q = some n := h1
    rw [statIno_unlink] at h1'
    by_cases hqi : q = linkf i
    · rw [if_pos hqi] at h1'
      exact Option.noConfusion h1'
    · rw [if_neg hqi] at h1'
      exact fr q n h1'
  · intro a hga
    rw [setProc_procs] at hga
    show statIno (unlinkSys g.fs (linkf i)) (linkf a) = none
    rw [statIno_unlink]
    by_cases hli : linkf a = linkf i
    · rw [if_pos hli]
    · rw [if_neg hli]
      have hai : ¬ (a = i) := fun hh => hli (by rw [hh])
      rw [if_neg hai] at hga
      exact lg a hga

/-- The invariant is preserved by every transition of the interleaved
system. -/
theorem inv_step {N : Nat} {lockf : String} {linkf : Fin N → String}
    (hne : ∀ i, linkf i ≠ lockf)
    (hinj : ∀ i j, linkf i = linkf j → i = j)
    {g g' : GState N}
    (hI : Inv N lockf linkf g) (hs : Step N lockf linkf g g') :
    Inv N lockf linkf g' := by
  cases hs with
  | creatLink i h =>
    cases hpre : statIno g.fs (linkf i) with
    | some n =>
      have hfs : (openCreat g.fs (linkf i) 384).1 = g.fs := by
        rw [openCreat_present g.fs (linkf i) 384 n hpre]
      rw [hfs]
      exact inv_update_same_locked i _ hI rfl (fun _ hc => hc.elim)
        (fun _ => hI.plainUnlocked i (by rw [h]; trivial))
        (fun hg => hg.elim)
    | none =>
      obtain ⟨u, lp, pu, lo, ld, fr, lg⟩ := hI
      have hstat : ∀ q, statIno (openCreat g.fs (linkf i) 384).1 q =
          if q = linkf i then some g.fs.next else statIno g.fs q :=
        fun q => statIno_openCreat_absent g.fs (linkf i) 384 q hpre
      have hnext : (openCreat g.fs (linkf i) 384).1.next = g.fs.next + 1 :=
        openCreat_next_absent g.fs (linkf i) 384 hpre
      refine ⟨?_, ?_, ?_, ?_, ?_, ?_, ?_⟩
      · intro a b ha hca hb hcb
        rw [setProc_procs] at ha hca hb hcb
        by_cases hai : a = i <;> by_cases hbi : b = i
        · rw [hai, hbi]
        · rw [if_pos hai] at hca
          exact hca.elim
        · rw [if_pos hbi] at hcb
          exact hcb.elim
        · rw [if_neg hai] at ha hca
          rw [if_neg hbi] at hb hcb
          exact u a b ha hca hb hcb
      · intro a ha hca
        rw [setProc_procs] at ha hca
        show ∃ m, statIno (openCreat g.fs (linkf i) 384).1 lockf = some m
        rw [hstat lockf, if_neg (fun hh => hne i hh.symm)]
        by_cases hai : a = i
        · rw [if_pos hai] at hca
          exact hca.elim
        · rw [if_neg hai] at ha hca
          exact lp a ha hca
      · intro a hpa
        rw [setProc_procs] at hpa ⊢
        by_cases hai : a = i
        · rw [if_pos hai] at hpa ⊢
          exact pu i (by rw [h]; trivial)
        · rw [if_neg hai] at hpa ⊢
          exact pu a hpa
      · intro a m h1 h2
        have h2' : statIno (openCreat g.fs (linkf i) 384).1 lockf = some m := h2
        rw [hstat lockf, if_neg (fun hh => hne i hh.symm)] at h2'
        have h1' : statIno (openCreat g.fs (linkf i) 384).1 (linkf a) = some m := h1
        rw [hstat (linkf a)] at h1'
        by_cases hsa : linkf a = linkf i
        · rw [if_pos hsa] at h1'
          have hm : m = g.fs.next := (Option.some.inj h1').symm
          have hlt := fr lockf m h2'
          rw [hm] at hlt
          exact absurd hlt (lt_irrefl _)
        · rw [if_neg hsa] at h1'
          have hai : ¬ a = i := fun hh => hsa (by rw [hh])
          rw [setProc_procs, if_neg hai]
          exact lo a m h1' h2'
      · intro a b m h1 h2
        have h1' : statIno (openCreat g.fs (linkf i) 384).1 (linkf a) = some m := h1
        have h2' : statIno (openCreat g.fs (linkf i) 384).1 (linkf b) = some m := h2
        rw [hstat (linkf a)] at h1'
        rw [hstat (linkf b)] at h2'
        by_cases hsa : linkf a = linkf i <;> by_cases hsb : linkf b = linkf i
        · exact (hinj a i hsa).trans (hinj b i hsb).symm
        · rw [if_pos hsa] at h1'
          rw [if_neg hsb] at h2'
          have hm : m = g.fs.next := (Option.some.inj h1').symm
          have hlt := fr (linkf b) m h2'
          rw [hm] at hlt
          exact absurd hlt (lt_irrefl _)
        · rw [if_neg hsa] at h1'
          rw [if_pos hsb] at h2'
          have hm : m = g.fs.next := (Option.some.inj h2').symm
          have hlt := fr (linkf a) m h1'
          rw [hm] at hlt
          exact absurd hlt (lt_irrefl _)
        · rw [if_neg hsa] at h1'
          rw [if_neg hsb] at h2'
          exact ld a b m h1' h2'
      · intro q m h1
        have h1' : statIno (openCreat g.fs (linkf i) 384).1 q = some m := h1
        rw [hstat q] at h1'
        show m < (openCreat g.fs (linkf i) 384).1.next
        rw [hnext]
        by_cases hq : q = linkf i
        · rw [if_pos hq] at h1'
          have hm : m = g.fs.next := (Option.some.inj h1').symm
          rw [hm]
          exact Nat.lt_succ_self _
        · rw [if_neg hq] at h1'
          exact Nat.lt_succ_of_lt (fr q m h1')
      · intro a hga
        rw [setProc_procs] at hga
        show statIno (openCreat g.fs (linkf i) 384).1 (linkf a) = none
        by_cases hai : a = i
        · rw [if_pos hai] at hga
          exact hga.elim
        · rw [if_neg hai] at hga
          rw [hstat (linkf a), if_neg (fun hh => hai (hinj a i hh))]
          exact lg a hga
  | creatFail i h =>
    exact inv_update_same_locked i _ hI rfl
      (by
        intro hlck hcp
        have h0 : (g.procs i).locked = false := hI.plainUnlocked i (by rw [h]; trivial)
        have h1 : (g.procs i).locked = true := hlck
        rw [h0] at h1
        exact Bool.noConfusion h1)
      (fun hpl => hpl.elim)
      (fun hg => hg.elim)
  | linkOk i n h hL hs0 =>
    obtain ⟨u, lp, pu, lo, ld, fr, lg⟩ := hI
    have hstat : ∀ q, statIno (addName g.fs lockf n) q =
        if q = lockf then some n else statIno g.fs q :=
      statIno_addName g.fs lockf n
    refine ⟨?_, ?_, ?_, ?_, ?_, ?_, ?_⟩
    · intro a b ha hca hb hcb
      rw [setProc_procs] at ha hca hb hcb
      by_cases hai : a = i <;> by_cases hbi : b = i
      · rw [hai, hbi]
      · rw [if_neg hbi] at hb hcb
        obtain ⟨m, hm⟩ := lp b hb hcb
        rw [hL] at hm
        exact Option.noConfusion hm
      · rw [if_neg hai] at ha hca
        obtain ⟨m, hm⟩ := lp a ha hca
        rw [hL] at hm
        exact Option.noConfusion hm
      · rw [if_neg hai] at ha hca
        rw [if_neg hbi] at hb hcb
        exact u a b ha hca hb hcb
    · intro a ha hca
      refine ⟨n, ?_⟩
      show statIno (addName g.fs lockf n) lockf = some n
      rw [hstat lockf, if_pos rfl]
    · intro a hpa
      rw [setProc_procs] at hpa ⊢
      by_cases hai : a = i
      · rw [if_pos hai] at hpa
        exact hpa.elim
      · rw [if_neg hai] at hpa ⊢
        exact pu a hpa
    · intro a m h1 h2
      have h1' : statIno (addName g.fs lockf n) (linkf a) = some m := h1
      have h2' : statIno (addName g.fs lockf n) lockf = some m := h2
      rw [hstat (linkf a), if_neg (hne a)] at h1'
      rw [hstat lockf, if_pos rfl] at h2'
      have hm : n = m := Option.some.inj h2'
      rw [← hm] at h1'
      have hai : a = i := ld a i n h1' hs0
      rw [setProc_procs, if_pos hai]
    · intro a b m h1 h2
      have h1' : statIno (addName g.fs lockf n) (linkf a) = some m := h1
      have h2' : statIno (addName g.fs lockf n) (linkf b) = some m := h2
      rw [hstat (linkf a), if_neg (hne a)] at h1'
      rw [hstat (linkf b), if_neg (hne b)] at h2'
      exact ld a b m h1' h2'
    · intro q m h1
      have h1' : statIno (addName g.fs lockf n) q = some m := h1
      rw [hstat q] at h1'
      show m < (addName g.fs lockf n).next
      rw [addName_next]
      by_cases hq : q = lockf
      · rw [if_pos hq] at h1'
        have hm : n = m := Option.some.inj h1'
        rw [← hm]
        exact fr (linkf i) n hs0
      · rw [if_neg hq] at h1'
        exact fr q m h1'
    · intro a hga
      rw [setProc_procs] at hga
      show statIno (addName g.fs lockf n) (linkf a) = none
      rw [hstat (linkf a), if_neg (hne a)]
      by_cases hai : a = i
      · rw [if_pos hai] at hga
        exact hga.elim
      · rw [if_neg hai] at hga
        exact lg a hga
  | linkEexist i n h hL =>
    exact inv_update_same_locked i _ hI rfl
      (by
        intro hlck hcp
        have h0 : (g.procs i).locked = false := hI.plainUnlocked i (by rw [h]; trivial)
        have h1 : (g.procs i).locked = true := hlck
        rw [h0] at h1
        exact Bool.noConfusion h1)
      (fun hpl => hpl.elim)
      (fun hg => hg.elim)
  | linkEnoent i h hL hs0 =>
    exact inv_update_same_locked i _ hI rfl
      (by
        intro hlck hcp
        have h0 : (g.procs i).locked = false := hI.plainUnlocked i (by rw [h]; trivial)
        have h1 : (g.procs i).locked = true := hlck
        rw [h0] at h1
        exact Bool.noConfusion h1)
      (fun hpl => hpl.elim)
      (fun hg => hg.elim)
  | linkFatal i h =>
    exact inv_update_same_locked i _ hI rfl
      (by
        intro hlck hcp
        have h0 : (g.procs i).locked = false := hI.plainUnlocked i (by rw [h]; trivial)
        have h1 : (g.procs i).locked = true := hlck
        rw [h0] at h1
        exact Bool.noConfusion h1)
      (fun hpl => hpl.elim)
      (fun hg => hg.elim)
  | openOk i n h hL =>
    exact inv_update_same_locked i _ hI rfl
      (fun _ _ => by rw [h]; trivial)
      (fun hpl => hpl.elim)
      (fun hg => hg.elim)
  | openEnoentRetry i h hL =>
    cases hcase : (g.procs i).locked with
    | true =>
      obtain ⟨m, hm⟩ := hI.lockPresent i hcase (by rw [h]; trivial)
      rw [hL] at hm
      exact Option.noConfusion hm
    | false =>
      exact inv_update_same_locked i _ hI (by rw [hcase]) (fun _ hc => hc.elim)
        (fun _ => rfl) (fun hg => hg.elim)
  | openEnoentFatal i h hL =>
    cases hcase : (g.procs i).locked with
    | true =>
      obtain ⟨m, hm⟩ := hI.lockPresent i hcase (by rw [h]; trivial)
      rw [hL] at hm
      exact Option.noConfusion hm
    | false =>
      exact inv_update_same_locked i _ hI rfl
        (by
          intro hlck hcp
          have h1 : (g.procs i).locked = true := hlck
          rw [hcase] at h1
          exact Bool.noConfusion h1)
        (fun hpl => hpl.elim)
        (fun hg => hg.elim)
  | openFatal i h =>
    exact inv_update_same_locked i _ hI rfl
      (fun _ _ => by rw [h]; trivial)
      (fun hpl => hpl.elim)
      (fun hg => hg.elim)
  | setlkBreak i h hl =>
    exact inv_update_same_locked i _ hI rfl
      (fun _ _ => by rw [h]; trivial)
      (fun hpl => hpl.elim)
      (fun hg => hg.elim)
  | waitRetry i h hl =>
    exact inv_update_same_locked i _ hI rfl (fun _ hc => hc.elim)
      (fun _ => hl) (fun hg => hg.elim)
  | waitFatal i h hl =>
    exact inv_update_same_locked i _ hI rfl
      (by
        intro hlck hcp
        have h1 : (g.procs i).locked = true := hlck
        rw [hl] at h1
        exact Bool.noConfusion h1)
      (fun hpl => hpl.elim)
      (fun hg => hg.elim)
  | successUnlink i h =>
    exact inv_unlink_linkfile hne i _ hI rfl
      (fun _ _ => by rw [h]; trivial)
      (fun hpl => hpl.elim)
  | cleanRecover i a h hl ha hb =>
    have hown := hI.linkOwner i a hb ha
    rw [hl] at hown
    exact Bool.noConfusion hown
  | cleanNoRecover i h hc =>
    exact inv_update_same_locked i _ hI rfl
      (fun _ _ => by rw [h]; trivial)
      (fun hpl => hpl.elim)
      (fun hg => hg.elim)
  | cleanUnlinkLink i h =>
    exact inv_unlink_linkfile hne i _ hI rfl
      (fun _ _ => by rw [h]; trivial)
      (fun hpl => hpl.elim)
  | cleanClose i h =>
    exact inv_update_same_locked i _ hI rfl
      (fun _ _ => by rw [h]; trivial)
      (fun hpl => hpl.elim)
      (fun _ => hI.linkGone i (by rw [h]; trivial))
  | cleanUnlinkLock i h hl =>
    obtain ⟨u, lp, pu, lo, ld, fr, lg⟩ := hI
    have hcritI : critPC ((g.procs i).pc) := by rw [h]; trivial
    refine ⟨?_, ?_, ?_, ?_, ?_, ?_, ?_⟩
    · intro a b ha hca hb hcb
      rw [setProc_procs] at ha hca hb hcb
      by_cases hai : a = i <;> by_cases hbi : b = i
      · rw [hai, hbi]
      · rw [if_pos hai] at hca
        exact hca.elim
      · rw [if_pos hbi] at hcb
        exact hcb.elim
      · rw [if_neg hai] at ha hca
        rw [if_neg hbi] at hb hcb
        exact u a b ha hca hb hcb
    · intro a ha hca
      rw [setProc_procs] at ha hca
      by_cases hai : a = i
      · rw [if_pos hai] at hca
        exact hca.elim
      · rw [if_neg hai] at ha hca
        exact absurd (u a i ha hca hl hcritI) hai
    · intro a hpa
      rw [setProc_procs] at hpa ⊢
      by_cases hai : a = i
      · rw [if_pos hai] at hpa
        exact hpa.elim
      · rw [if_neg hai] at hpa ⊢
        exact pu a hpa
    · intro a m h1 h2
      have h2' : statIno (unlinkSys g.fs lockf) lockf = some m := h2
      rw [statIno_unlink, if_pos rfl] at h2'
      exact Option.noConfusion h2'
    · intro a b m h1 h2
      have h1' : statIno (unlinkSys g.fs lockf) (linkf a) = some m := h1
      have h2' : statIno (unlinkSys g.fs lockf) (linkf b) = some m := h2
      rw [statIno_unlink, if_neg (hne a)] at h1'
      rw [statIno_unlink, if_neg (hne b)] at h2'
      exact ld a b m h1' h2'
    · intro q m h1
      have h1' : statIno (unlinkSys g.fs lockf) q = some m := h1
      rw [statIno_unlink] at h1'
      by_cases hq : q = lockf
      · rw [if_pos hq] at h1'
        exact Option.noConfusion h1'
      · rw [if_neg hq] at h1'
        exact fr q m h1'
    · intro a hga
      rw [setProc_procs] at hga
      show statIno (unlinkSys g.fs lockf) (linkf a) = none
      rw [statIno_unlink, if_neg (hne a)]
      by_cases hai : a = i
      · rw [hai]
        exact lg i (by rw [h]; trivial)
      · rw [if_neg hai] at hga
        exact lg a hga
  | cleanSkip i h hl =>
    exact inv_update_same_locked i _ hI rfl (fun _ hc => hc.elim)
      (fun hpl => hpl.elim)
      (fun _ => hI.linkGone i (by rw [h]; trivial))
  | cleanFinish i h =>
    obtain ⟨u, lp, pu, lo, ld, fr, lg⟩ := hI
    have hgE : statIno g.fs (linkf i) = none := lg i (by rw [h]; trivial)
    refine ⟨?_, ?_, ?_, ?_, ?_, ?_, ?_⟩
    · intro a b ha hca hb hcb
      rw [setProc_procs] at ha hca hb hcb
      by_cases hai : a = i <;> by_cases hbi : b = i
      · rw [hai, hbi]
      · rw [if_pos hai] at hca
        exact hca.elim
      · rw [if_pos hbi] at hcb
        exact hcb.elim
      · rw [if_neg hai] at ha hca
        rw [if_neg hbi] at hb hcb
        exact u a b ha hca hb hcb
    · intro a ha hca
      rw [setProc_procs] at ha hca
      by_cases hai : a = i
      · rw [if_pos hai] at hca
        exact hca.elim
      · rw [if_neg hai] at ha hca
        exact lp a ha hca
    · intro a hpa
      rw [setProc_procs] at hpa ⊢
      by_cases hai : a = i
      · rw [if_pos hai]
      · rw [if_neg hai] at hpa ⊢
        exact pu a hpa
    · intro a m h1 h2
      have h1' : statIno g.fs (linkf a) = some m := h1
      have h2' : statIno g.fs lockf = some m := h2
      rw [setProc_procs]
      by_cases hai : a = i
      · rw [hai] at h1'
        rw [hgE] at h1'
        exact Option.noConfusion h1'
      · rw [if_neg hai]
        exact lo a m h1' h2'
    · intro a b m h1 h2
      exact ld a b m h1 h2
    · intro q m h1
      exact fr q m h1
    · intro a hga
      rw [setProc_procs] at hga
      show statIno g.fs (linkf a) = none
      by_cases hai : a = i
      · rw [hai]
        exact hgE
      · rw [if_neg hai] at hga
        exact lg a hga

/-- A clean initial state satisfies the invariant. -/
theorem inv_init {N : Nat} {lockf : String} {linkf : Fin N → String}
    {g : GState N} (h : CleanInit N linkf g) : Inv N lockf linkf g := by
  obtain ⟨hp, hf, hl⟩ := h
  refine ⟨?_, ?_, ?_, ?_, ?_, ?_, ?_⟩
  · intro a b ha hca hb hcb
    rw [hp a] at ha
    exact Bool.noConfusion ha
  · intro a ha hca
    rw [hp a] at ha
    exact Bool.noConfusion ha
  · intro a hpa
    rw [hp a]
  · intro a m h1 h2
    rw [hl a] at h1
    exact Option.noConfusion h1
  · intro a b m h1 h2
    rw [hl a] at h1
    exact Option.noConfusion h1
  · exact hf
  · intro a hga
    rw [hp a] at hga
    exact hga.elim

/-- The invariant holds in every state reachable from a clean initial
state. -/
theorem inv_reach {N : Nat} {lockf : String} {linkf : Fin N → String}
    (hne : ∀ i, linkf i ≠ lockf)
    (hinj : ∀ i j, linkf i = linkf j → i = j)
    {g0 g : GState N} (h0 : Inv N lockf linkf g0)
    (hr : Relation.ReflTransGen (Step N lockf linkf) g0 g) :
    Inv N lockf linkf g := by
  induction hr with
  | refl => exact h0
  | tail hsteps hstep ih => exact inv_step hne hinj ih hstep

/-- C9 (counterexample): a reachable instant with two owners.  From a clean
50-contender start, process 0 wins the link race, its `open(lockfile)` fails
spuriously (fatal non-`ENOENT` branch, source lines 379-389), and its cleanup
deletes the lock file (line 258) before the flag reset (line 260); in that
window process 1 wins the now-vacant link race.  In the reachable state
`c9g9` both process 0 (mid-cleanup) and process 1 have `owns_lock == true` at
the same instant, refuting "at most one handle has owns_lock == true at any
instant". -/
theorem claim_C9_counterexample :
    CleanInit c9N c9linkf c9g0 ∧
    Relation.ReflTransGen (Step c9N c9lockf c9linkf) c9g0 c9g9 ∧
    (c9g9.procs c9i0).locked = true ∧
    (c9g9.procs c9i1).locked = true ∧
    c9i0 ≠ c9i1 := by
  refine ⟨⟨fun _ => rfl, fun p n h => Option.noConfusion h, fun _ => rfl⟩, ?_,
    by decide, by decide, by decide⟩
  have s1 : Step c9N c9lockf c9linkf c9g0 c9g1 := Step.creatLink c9g0 c9i0 rfl
  have s2 : Step c9N c9lockf c9linkf c9g1 c9g2 :=
    Step.linkOk c9g1 c9i0 0 rfl (by decide) (by decide)
  have s3 : Step c9N c9lockf c9linkf c9g2 c9g3 := Step.openFatal c9g2 c9i0 rfl
  have s4 : Step c9N c9lockf c9linkf c9g3 c9g4 :=
    Step.cleanNoRecover c9g3 c9i0 rfl (fun hcon => absurd hcon.1 (by decide))
  have s5 : Step c9N c9lockf c9linkf c9g4 c9g5 := Step.cleanUnlinkLink c9g4 c9i0 rfl
  have s6 : Step c9N c9lockf c9linkf c9g5 c9g6 := Step.cleanClose c9g5 c9i0 rfl
  have s7 : Step c9N c9lockf c9linkf c9g6 c9g7 :=
    Step.cleanUnlinkLock c9g6 c9i0 rfl (by decide)
  have s8 : Step c9N c9lockf c9linkf c9g7 c9g8 := Step.creatLink c9g7 c9i1 (by decide)
  have s9 : Step c9N c9lockf c9linkf c9g8 c9g9 :=
    Step.linkOk c9g8 c9i1 1 (by decide) (by decide) (by decide)
  exact Relation.ReflTransGen.tail (Relation.ReflTransGen.tail
    (Relation.ReflTransGen.tail (Relation.ReflTransGen.tail
    (Relation.ReflTransGen.tail (Relation.ReflTransGen.tail
    (Relation.ReflTransGen.tail (Relation.ReflTransGen.tail
    (Relation.ReflTransGen.single s1) s2) s3) s4) s5) s6) s7) s8) s9

/-- C9 (amended): mutual exclusion outside the release cleanup.  For any
number `N` of independent contenders (so in particular for all `N` up to 50
and beyond) with pairwise distinct link paths and no stale link files of
their own at the start, every state reachable by interleaving their
`mnt_lock_file` runs has at most one process with `locked == true` whose
counter is not inside `mnt_unlock_file`; a failed acquire executing the
cleanup may transiently keep `locked == 1` until the final reset, which is
the only way two handles can momentarily both show `owns_lock == true` (see
the counterexample). -/
theorem claim_C9 (N : Nat) (lockf : String) (linkf : Fin N → String)
    (hne : ∀ i, linkf i ≠ lockf) (hinj : ∀ i j, linkf i = linkf j → i = j)
    (g0 g : GState N) (h0 : CleanInit N linkf g0)
    (hr : Relation.ReflTransGen (Step N lockf linkf) g0 g) :
    ∀ i j, (g.procs i).locked = true → (g.procs j).locked = true →
      ¬ ((g.procs i).pc).isCleanup → ¬ ((g.procs j).pc).isCleanup → i = j := by
  have hInv := inv_reach hne hinj (inv_init h0) hr
  have hcrit : ∀ a, (g.procs a).locked = true → ¬ ((g.procs a).pc).isCleanup →
      critPC ((g.procs a).pc) := by
    intro a ha hca
    have hpl := hInv.plainUnlocked a
    cases hpc : (g.procs a).pc with
    | start =>
      have h0 := hpl (by rw [hpc]; trivial)
      rw [h0] at ha
      exact Bool.noConfusion ha
    | loop =>
      have h0 := hpl (by rw [hpc]; trivial)
      rw [h0] at ha
      exact Bool.noConfusion ha
    | failed =>
      have h0 := hpl (by rw [hpc]; trivial)
      rw [h0] at ha
      exact Bool.noConfusion ha
    | cleanE => exact absurd (by rw [hpc]; trivial) hca
    | linked => trivial
    | opened => trivial
    | success => trivial
    | done => trivial
    | cleanA => trivial
    | cleanB => trivial
    | cleanC => trivial
    | cleanD => trivial
  intro i j hi hj hci hcj
  exact hInv.critUniq i j hi (hcrit i hi hci) hj (hcrit j hj hcj)

/-- C9 (witness): 50 concrete contenders on an empty filesystem; process 0
creates its link file and wins the link race, reaching a state where it owns
the lock outside any cleanup, and the amended mutual-exclusion theorem
applied twice to the owner yields the only possibility `c9i0 = c9i0`. -/
theorem claim_C9_witness :
    (c9g2.procs c9i0).locked = true ∧ c9i0 = c9i0 :=
  ⟨by decide,
    claim_C9 c9N c9lockf c9linkf (by decide) (by decide) c9g0 c9g2
      ⟨fun _ => rfl, fun p n h => Option.noConfusion h, fun _ => rfl⟩
      (Relation.ReflTransGen.tail
        (Relation.ReflTransGen.single (Step.creatLink c9g0 c9i0 rfl))
        (Step.linkOk c9g1 c9i0 0 rfl rfl rfl))
      c9i0 c9i0 (by decide) (by decide) (by decide) (by decide)⟩

/-- C10: every public operation tolerates a NULL handle: `mnt_lock_file`
returns `-EINVAL` (without touching the filesystem), `mnt_unlock_file` and
`mnt_free_lock` do nothing, and both path accessors return NULL. -/
theorem claim_C10 :
    (∀ (fs : Fs) (o : LockOracle),
      mnt_lock_file fs none o = some (fs, none, -(EINVAL : Int)))
    ∧ (∀ fs : Fs, mnt_unlock_file fs none = (fs, none))
    ∧ mnt_free_lock none = ()
    ∧ mnt_lock_get_lockfile none = none
    ∧ mnt_lock_get_linkfile none = none :=
  ⟨fun _ _ => rfl, fun _ => rfl, rfl, rfl, rfl⟩

end MtabLock
